import Mathlib

/-!
Verification development for the attribute-based tabs subsystem of the
bruce-studios-webflow repository.  The DOM is shallowly embedded: an element
carries a tag name, an ordered attribute list and an ordered class list; a
document is a list of elements addressed by position.  The tab-group registry,
the activation state machine and the two-phase animated transition protocol
are translated function-by-function from the source; the timer-deferred
continuations of the transition executor become explicit phases of a per-group
state machine driven by timer-firing events.
-/

namespace Tabs

/-! ## Constants (source: Configuration section) -/

def DEFAULT_ACTIVE_CLASS : String := "is-tab-active"

def DEFAULT_ANIMATION_DURATION : Int := 300

def ANIM_CLASS_leaving : String := "is-leaving"

def ANIM_CLASS_entering : String := "is-entering"

def ATTR_group : String := "bw-tabs-group"

def ATTR_trigger : String := "bw-tabs-trigger"

def ATTR_content : String := "bw-tabs-content"

def ATTR_defaultMark : String := "bw-tabs-default"

def ATTR_activeClass : String := "bw-tabs-class"

def ATTR_animate : String := "bw-tabs-animate"

def ATTR_duration : String := "bw-tabs-duration"

def ariaSelected : String := "aria-selected"

def ariaHidden : String := "aria-hidden"

/-! ## DOM element model -/

structure Elem where
  tag : String
  attrs : List (String × String)
  classes : List String
deriving DecidableEq, Repr, Inhabited

def Elem.getAttr (e : Elem) (k : String) : Option String :=
  (e.attrs.find? (fun p => p.1 == k)).map (fun p => p.2)

def Elem.hasAttr (e : Elem) (k : String) : Bool :=
  (e.getAttr k).isSome

def Elem.setAttr (e : Elem) (k v : String) : Elem :=
  if e.hasAttr k then
    { e with attrs := e.attrs.map (fun p => if p.1 == k then (p.1, v) else p) }
  else
    { e with attrs := e.attrs ++ [(k, v)] }

def Elem.classContains (e : Elem) (c : String) : Bool :=
  e.classes.contains c

def Elem.classAdd (e : Elem) (c : String) : Elem :=
  if e.classes.contains c then e else { e with classes := e.classes ++ [c] }

def Elem.classRemove (e : Elem) (c : String) : Elem :=
  { e with classes := e.classes.filter (fun x => x != c) }

/-! ## Document model -/

abbrev Dom := List Elem

def domGet (d : Dom) (i : Nat) : Elem :=
  (d[i]?).getD default

def domModify (d : Dom) (i : Nat) (f : Elem → Elem) : Dom :=
  d.set i (f (domGet d i))

def domForEach (d : Dom) (ids : List Nat) (f : Elem → Elem) : Dom :=
  ids.foldl (fun acc i => domModify acc i f) d

/-! ## parseInt model (radix 10): optional leading whitespace and sign,
then leading digits; no digits yields NaN, modelled as `none`. -/

def parseIntJS (s : String) : Option Int :=
  let cs := s.toList.dropWhile (fun c => c = ' ' || c = '\t' || c = '\n' || c = '\r')
  match cs with
  | [] => none
  | c :: rest =>
    let signDigits : Bool × List Char :=
      if c = '-' then (true, rest)
      else if c = '+' then (false, rest)
      else (false, c :: rest)
    let digits := signDigits.2.takeWhile Char.isDigit
    if digits.isEmpty then none
    else
      let n : Nat := digits.foldl (fun acc ch => acc * 10 + (ch.toNat - 48)) 0
      some (if signDigits.1 then -(n : Int) else (n : Int))

/-! ## Tab group record and registry.  The two timer-deferred continuations of
the transition executor are modelled as explicit phases: the boolean
`isAnimating` of the source is true exactly when the phase is not idle
(set on transition start, cleared by the second timer). -/

inductive AnimPhase where
  | idle : AnimPhase
  | exitScheduled (currentPanel : Nat) (nextPanels : List Nat) : AnimPhase
  | enterScheduled : AnimPhase
deriving DecidableEq, Repr

structure TabsGroup where
  name : String
  triggers : List Nat
  panels : List Nat
  activeClass : String
  animate : Bool
  duration : Option Int
  phase : AnimPhase
deriving DecidableEq, Repr

def TabsGroup.isAnimating (g : TabsGroup) : Bool :=
  g.phase != AnimPhase.idle

abbrev Registry := List (String × TabsGroup)

def regFind (r : Registry) (n : String) : Option TabsGroup :=
  (r.find? (fun p => p.1 == n)).map (fun p => p.2)

def regSet (r : Registry) (n : String) (g : TabsGroup) : Registry :=
  if r.any (fun p => p.1 == n) then
    r.map (fun p => if p.1 == n then (n, g) else p)
  else
    r ++ [(n, g)]

def regSetPhase (r : Registry) (n : String) (ph : AnimPhase) : Registry :=
  r.map (fun p => if p.1 == n then (p.1, { p.2 with phase := ph }) else p)

structure St where
  dom : Dom
  reg : Registry
  log : List String
deriving DecidableEq, Repr

/-! ## Per-element mutations used by the activation procedures -/

def dT (ac : String) (e : Elem) : Elem :=
  (e.classRemove ac).setAttr ariaSelected "false"

def aT (ac : String) (e : Elem) : Elem :=
  (e.classAdd ac).setAttr ariaSelected "true"

def dP (ac : String) (e : Elem) : Elem :=
  (((e.classRemove ac).classRemove ANIM_CLASS_leaving).classRemove ANIM_CLASS_entering).setAttr
    ariaHidden "true"

def aP (ac : String) (e : Elem) : Elem :=
  (e.classAdd ac).setAttr ariaHidden "false"

def dPi (ac : String) (e : Elem) : Elem :=
  (e.classRemove ac).setAttr ariaHidden "true"

def exitStart (ac : String) (e : Elem) : Elem :=
  (e.classAdd ANIM_CLASS_leaving).classRemove ac

def exitCleanup (e : Elem) : Elem :=
  (e.classRemove ANIM_CLASS_leaving).setAttr ariaHidden "true"

def enterPrep (e : Elem) : Elem :=
  (e.classAdd ANIM_CLASS_entering).setAttr ariaHidden "false"

def enterFinish (ac : String) (e : Elem) : Elem :=
  (e.classAdd ac).classRemove ANIM_CLASS_entering

/-! ## activateTabInstant (source lines 215-242) -/

def activateTabInstant (d : Dom) (g : TabsGroup) (tabId : String) : Dom :=
  let d1 := domForEach d g.triggers (dT g.activeClass)
  let d2 := domForEach d1 g.panels (dP g.activeClass)
  let d3 := domForEach d2
    (g.triggers.filter (fun i => (domGet d2 i).getAttr ATTR_trigger == some tabId))
    (aT g.activeClass)
  domForEach d3
    (g.panels.filter (fun i => (domGet d3 i).getAttr ATTR_content == some tabId))
    (aP g.activeClass)

/-! ## activateTab (source lines 247-296) with the start of animateTransition
(source lines 301-315): the exit-phase timer is left pending as the
exitScheduled phase.  The synchronous trigger update (deselect all triggers,
select those matching the target) and the instant panel switch are the two
DOM passes of the source, given names here. -/

def trigUpdate (d : Dom) (g : TabsGroup) (tabId : String) : Dom :=
  domForEach (domForEach d g.triggers (dT g.activeClass))
    (g.triggers.filter (fun i =>
      (domGet (domForEach d g.triggers (dT g.activeClass)) i).getAttr ATTR_trigger ==
        some tabId))
    (aT g.activeClass)

def panelSwitchInstant (d : Dom) (g : TabsGroup) (nextPanels : List Nat) : Dom :=
  domForEach (domForEach d g.panels (dPi g.activeClass)) nextPanels (aP g.activeClass)

def activateTab (st : St) (groupName tabId : String) : St :=
  match regFind st.reg groupName with
  | none => { st with log := st.log ++ ["warn: group not found: " ++ groupName] }
  | some g =>
    if g.isAnimating then st
    else
      let currentPanel := g.panels.find? (fun i => (domGet st.dom i).classContains g.activeClass)
      let nextPanels :=
        g.panels.filter (fun i => (domGet st.dom i).getAttr ATTR_content == some tabId)
      if (match currentPanel with
          | some cp => nextPanels.contains cp
          | none => false) then st
      else
        let d2 := trigUpdate st.dom g tabId
        match currentPanel with
        | some cp =>
          if g.animate then
            { st with
              dom := domModify d2 cp (exitStart g.activeClass)
              reg := regSetPhase st.reg groupName (AnimPhase.exitScheduled cp nextPanels) }
          else
            { st with dom := panelSwitchInstant d2 g nextPanels }
        | none =>
          { st with dom := panelSwitchInstant d2 g nextPanels }

/-! ## Exit-phase timer callback (source lines 317-349): cleanup of the
leaving panel, defensive deactivation of every panel outside the next set,
enter-phase class choreography, and scheduling of the unlock timer. -/

def exitPhaseDom (d : Dom) (g : TabsGroup) (cp : Nat) (nps : List Nat) : Dom :=
  let d1 := domModify d cp exitCleanup
  let d2 := domForEach d1 (g.panels.filter (fun i => !(nps.contains i))) (dP g.activeClass)
  let d3 := domForEach d2 nps enterPrep
  domForEach d3 nps (enterFinish g.activeClass)

def fireExit (st : St) (groupName : String) : St :=
  match regFind st.reg groupName with
  | none => st
  | some g =>
    match g.phase with
    | AnimPhase.exitScheduled cp nps =>
      { st with
        dom := exitPhaseDom st.dom g cp nps
        reg := regSetPhase st.reg groupName AnimPhase.enterScheduled }
    | _ => st

/-! ## Unlock timer callback (source lines 346-348) -/

def fireEnter (st : St) (groupName : String) : St :=
  match regFind st.reg groupName with
  | none => st
  | some g =>
    match g.phase with
    | AnimPhase.enterScheduled =>
      { st with reg := regSetPhase st.reg groupName AnimPhase.idle }
    | _ => st

/-! ## Group initializer (source lines 130-210).  Click/keyboard handler
wiring has no DOM-state effect and is not modelled; the focusability and
role assignments are. -/

def queryTriggers (d : Dom) (groupName : String) : List Nat :=
  (List.range d.length).filter (fun i =>
    ((domGet d i).getAttr ATTR_group == some groupName) && (domGet d i).hasAttr ATTR_trigger)

def queryPanels (d : Dom) (groupName : String) : List Nat :=
  (List.range d.length).filter (fun i =>
    ((domGet d i).getAttr ATTR_group == some groupName) && (domGet d i).hasAttr ATTR_content)

def deriveActiveClass (ft : Elem) : String :=
  match ft.getAttr ATTR_activeClass with
  | some s => if s == "" then DEFAULT_ACTIVE_CLASS else s
  | none => DEFAULT_ACTIVE_CLASS

def deriveDuration (ft : Elem) : Option Int :=
  match ft.getAttr ATTR_duration with
  | some s => if s == "" then some DEFAULT_ANIMATION_DURATION else parseIntJS s
  | none => some DEFAULT_ANIMATION_DURATION

def roleT (e : Elem) : Elem :=
  let e1 :=
    if !e.hasAttr "tabindex" && e.tag != "BUTTON" && e.tag != "A" then
      e.setAttr "tabindex" "0"
    else e
  e1.setAttr "role" "tab"

def roleP (e : Elem) : Elem :=
  e.setAttr "role" "tabpanel"

def defaultTabIdOf (d : Dom) (triggers : List Nat) : Option String :=
  match triggers.find? (fun i => (domGet d i).hasAttr ATTR_defaultMark) with
  | some i => (domGet d i).getAttr ATTR_trigger
  | none =>
    match triggers.head? with
    | some i => (domGet d i).getAttr ATTR_trigger
    | none => none

def initGroupRecord (d : Dom) (groupName : String) (triggers panels : List Nat) : TabsGroup :=
  { name := groupName
    triggers := triggers
    panels := panels
    activeClass := deriveActiveClass (domGet d (triggers.headD 0))
    animate := (domGet d (triggers.headD 0)).hasAttr ATTR_animate
    duration := deriveDuration (domGet d (triggers.headD 0))
    phase := AnimPhase.idle }

def initRolesDom (d : Dom) (triggers panels : List Nat) : Dom :=
  domForEach (domForEach d triggers roleT) panels roleP

def initTabsGroup (st : St) (groupName : String) : St :=
  let triggers := queryTriggers st.dom groupName
  let panels := queryPanels st.dom groupName
  if triggers.isEmpty then
    { st with log := st.log ++ ["warn: no triggers: " ++ groupName] }
  else if panels.isEmpty then
    { st with log := st.log ++ ["warn: no panels: " ++ groupName] }
  else
    let group := initGroupRecord st.dom groupName triggers panels
    let reg1 := regSet st.reg groupName group
    let d2 := initRolesDom st.dom triggers panels
    match defaultTabIdOf d2 triggers with
    | some tid =>
      if tid == "" then { st with dom := d2, reg := reg1 }
      else { st with dom := activateTabInstant d2 group tid, reg := reg1 }
    | none => { st with dom := d2, reg := reg1 }

/-! ## Page-level discovery (source lines 109-125) -/

def dedupKeepFirst (l : List String) : List String :=
  l.foldl (fun acc s => if acc.contains s then acc else acc ++ [s]) []

def discoverGroupNames (d : Dom) : List String :=
  dedupKeepFirst
    (((List.range d.length).filterMap (fun i => (domGet d i).getAttr ATTR_group)).filter
      (fun s => s != ""))

def initAllTabs (st : St) : St :=
  let names := discoverGroupNames st.dom
  let st1 := names.foldl initTabsGroup st
  { st1 with
    log := st1.log ++ ["log: initialized " ++ toString names.length ++ " tabs groups"] }

/-! ## Public API (source lines 359-382) -/

def switchTab (st : St) (groupName tabId : String) : St :=
  if (regFind st.reg groupName).isSome then activateTab st groupName tabId
  else
    let st1 := initTabsGroup st groupName
    if (regFind st1.reg groupName).isSome then activateTab st1 groupName tabId
    else { st1 with log := st1.log ++ ["warn: cannot switch tab: " ++ groupName] }

def getActiveTab (st : St) (groupName : String) : Option String :=
  match regFind st.reg groupName with
  | none => none
  | some g =>
    match g.triggers.find? (fun i => (domGet st.dom i).classContains g.activeClass) with
    | none => none
    | some i =>
      match (domGet st.dom i).getAttr ATTR_trigger with
      | some s => if s == "" then none else some s
      | none => none

/-! ## Event semantics: user or programmatic activation requests, and the
firing of the two scheduled transition timers. -/

inductive Event where
  | activate (groupName tabId : String) : Event
  | fireExitTimer (groupName : String) : Event
  | fireEnterTimer (groupName : String) : Event
deriving DecidableEq, Repr

def step (st : St) : Event → St
  | Event.activate n t => activateTab st n t
  | Event.fireExitTimer n => fireExit st n
  | Event.fireEnterTimer n => fireEnter st n

def run (st : St) (evs : List Event) : St :=
  evs.foldl step st

/-! ## Element-level lemmas -/

theorem Elem.classContains_eq_decide (e : Elem) (c : String) :
    e.classContains c = decide (c ∈ e.classes) :=
  List.elem_eq_mem c e.classes

@[simp] theorem Elem.getAttr_classAdd (e : Elem) (c k : String) :
    (e.classAdd c).getAttr k = e.getAttr k := by
  unfold Elem.classAdd
  split <;> rfl

@[simp] theorem Elem.getAttr_classRemove (e : Elem) (c k : String) :
    (e.classRemove c).getAttr k = e.getAttr k := rfl

@[simp] theorem Elem.tag_classAdd (e : Elem) (c : String) :
    (e.classAdd c).tag = e.tag := by
  unfold Elem.classAdd
  split <;> rfl

@[simp] theorem Elem.tag_classRemove (e : Elem) (c : String) :
    (e.classRemove c).tag = e.tag := rfl

@[simp] theorem Elem.tag_setAttr (e : Elem) (k v : String) :
    (e.setAttr k v).tag = e.tag := by
  unfold Elem.setAttr
  split <;> rfl

@[simp] theorem Elem.classes_setAttr (e : Elem) (k v : String) :
    (e.setAttr k v).classes = e.classes := by
  unfold Elem.setAttr
  split <;> rfl

@[simp] theorem Elem.classContains_setAttr (e : Elem) (k v c : String) :
    (e.setAttr k v).classContains c = e.classContains c := by
  unfold Elem.classContains
  rw [show (e.setAttr k v).classes = e.classes from Elem.classes_setAttr e k v]

@[simp] theorem Elem.classContains_classAdd (e : Elem) (c c' : String) :
    (e.classAdd c).classContains c' = (c' == c || e.classContains c') := by
  unfold Elem.classAdd
  by_cases hcc : c' = c
  · subst hcc
    split
    · next h =>
      simp only [Elem.classContains, beq_self_eq_true, Bool.true_or]
      exact h
    · simp [Elem.classContains_eq_decide, List.mem_append]
  · split
    · simp [hcc]
    · simp [Elem.classContains_eq_decide, List.mem_append, hcc]

@[simp] theorem Elem.classContains_classRemove (e : Elem) (c c' : String) :
    (e.classRemove c).classContains c' = (c' != c && e.classContains c') := by
  unfold Elem.classRemove Elem.classContains
  simp only [List.elem_eq_mem, List.mem_filter]
  cases hc : c' != c
  · have hcc : c' = c := by simpa using hc
    subst hcc
    simp
  · have hcc : ¬ (c' = c) := by simpa using hc
    simp [hcc]

theorem findPair_map_replace (l : List (String × String)) (k v k' : String) :
    ((l.map fun p => if p.1 == k then (p.1, v) else p).find? fun p => p.1 == k') =
      (if k' = k then (l.find? fun p => p.1 == k).map (fun p => (p.1, v))
       else l.find? fun p => p.1 == k') := by
  induction l with
  | nil => by_cases hk : k' = k <;> simp [hk]
  | cons p l ih =>
    simp only [List.map_cons]
    by_cases hp : p.1 = k
    · have hpb : (p.1 == k) = true := by simpa using hp
      rw [if_pos hpb]
      by_cases hk : k' = k
      · subst hk
        have hbp : (((p.1, v) : String × String).1 == k') = true := by simpa using hp
        rw [@List.find?_cons_of_pos (String × String) (fun q => q.1 == k') (p.1, v)
            (l.map fun q => if q.1 == k' then (q.1, v) else q) hbp]
        simp only [if_pos rfl]
        rw [@List.find?_cons_of_pos (String × String) (fun q => q.1 == k') p l hpb]
        rfl
      · have hbp : ¬ (((p.1, v) : String × String).1 == k') = true := by
          simp only [beq_iff_eq]
          exact fun h => hk (h.symm.trans hp)
        rw [@List.find?_cons_of_neg (String × String) (fun q => q.1 == k') (p.1, v)
            (l.map fun q => if q.1 == k then (q.1, v) else q) hbp, ih]
        simp only [if_neg hk]
        rw [@List.find?_cons_of_neg (String × String) (fun q => q.1 == k') p l
          (show ¬ ((p : String × String).1 == k') = true from hbp)]
    · have hpb : ¬ (p.1 == k) = true := by simpa using hp
      rw [if_neg hpb]
      by_cases hpk : p.1 = k'
      · have hb : ((p : String × String).1 == k') = true := by simpa using hpk
        have hkk : ¬ k' = k := fun h => hp (hpk.trans h)
        rw [@List.find?_cons_of_pos (String × String) (fun q => q.1 == k') p
            (l.map fun q => if q.1 == k then (q.1, v) else q) hb]
        simp only [if_neg hkk]
        rw [@List.find?_cons_of_pos (String × String) (fun q => q.1 == k') p l hb]
      · have hb : ¬ ((p : String × String).1 == k') = true := by simpa using hpk
        rw [@List.find?_cons_of_neg (String × String) (fun q => q.1 == k') p
            (l.map fun q => if q.1 == k then (q.1, v) else q) hb, ih]
        by_cases hk : k' = k
        · simp only [if_pos hk]
          rw [@List.find?_cons_of_neg (String × String) (fun q => q.1 == k) p l hpb]
        · simp only [if_neg hk]
          rw [@List.find?_cons_of_neg (String × String) (fun q => q.1 == k') p l hb]

@[simp] theorem Elem.getAttr_setAttr (e : Elem) (k v k' : String) :
    (e.setAttr k v).getAttr k' = if k' = k then some v else e.getAttr k' := by
  unfold Elem.setAttr
  split
  · next hpresent =>
    simp only [Elem.getAttr]
    rw [findPair_map_replace]
    by_cases hk : k' = k
    · simp only [if_pos hk]
      unfold Elem.hasAttr Elem.getAttr at hpresent
      cases hf : e.attrs.find? (fun p => p.1 == k) with
      | none => rw [hf] at hpresent; simp at hpresent
      | some q => simp [hf]
    · simp only [if_neg hk]
  · next habsent =>
    simp only [Elem.getAttr]
    rw [List.find?_append]
    by_cases hk : k' = k
    · subst hk
      unfold Elem.hasAttr Elem.getAttr at habsent
      have hnone : e.attrs.find? (fun p => p.1 == k') = none := by
        cases hf : e.attrs.find? (fun p => p.1 == k') with
        | none => rfl
        | some q => rw [hf] at habsent; simp at habsent
      simp [hnone, List.find?_cons]
    · have hk2 : (k == k') = false := by
        simp only [beq_eq_false_iff_ne, ne_eq]
        exact fun h => hk h.symm
      have hsingle : ([(k, v)].find? fun p => p.1 == k') = none := by
        simp [List.find?_cons, hk2]
      rw [hsingle, if_neg hk]
      cases hf : e.attrs.find? (fun p => p.1 == k') <;> simp [Elem.getAttr, hf]

@[simp] theorem Elem.hasAttr_setAttr (e : Elem) (k v k' : String) :
    (e.setAttr k v).hasAttr k' = (k' == k || e.hasAttr k') := by
  unfold Elem.hasAttr
  rw [Elem.getAttr_setAttr]
  by_cases hk : k' = k <;> simp [hk]

@[simp] theorem Elem.hasAttr_classAdd (e : Elem) (c k : String) :
    (e.classAdd c).hasAttr k = e.hasAttr k := by
  unfold Elem.hasAttr
  rw [Elem.getAttr_classAdd]

@[simp] theorem Elem.hasAttr_classRemove (e : Elem) (c k : String) :
    (e.classRemove c).hasAttr k = e.hasAttr k := rfl

/-! ## Element algebra: commutation and idempotence of the basic mutations -/

theorem Elem.setAttr_of_has (e : Elem) (k v : String) (h : e.hasAttr k = true) :
    e.setAttr k v = { e with attrs := e.attrs.map fun p => if p.1 == k then (p.1, v) else p } := by
  unfold Elem.setAttr
  rw [if_pos h]

theorem Elem.setAttr_of_not_has (e : Elem) (k v : String) (h : ¬ e.hasAttr k = true) :
    e.setAttr k v = { e with attrs := e.attrs ++ [(k, v)] } := by
  unfold Elem.setAttr
  rw [if_neg h]

theorem Elem.setAttr_setAttr_same (e : Elem) (k v w : String) :
    (e.setAttr k v).setAttr k w = e.setAttr k w := by
  have hv : (e.setAttr k v).hasAttr k = true := by simp
  by_cases h : e.hasAttr k = true
  · rw [Elem.setAttr_of_has (e.setAttr k v) k w hv, Elem.setAttr_of_has e k v h,
      Elem.setAttr_of_has e k w h]
    show ({ e with attrs := ((e.attrs.map fun p => if p.1 == k then (p.1, v) else p).map
        (fun p => if p.1 == k then (p.1, w) else p)) } : Elem) =
      { e with attrs := e.attrs.map fun p => if p.1 == k then (p.1, w) else p }
    congr 1
    rw [List.map_map]
    apply List.map_congr_left
    intro p _
    by_cases hp : p.1 = k <;> simp [hp]
  · rw [Elem.setAttr_of_has (e.setAttr k v) k w hv, Elem.setAttr_of_not_has e k v h,
      Elem.setAttr_of_not_has e k w h]
    show ({ e with attrs := ((e.attrs ++ [(k, v)]).map
        (fun p => if p.1 == k then (p.1, w) else p)) } : Elem) =
      { e with attrs := e.attrs ++ [(k, w)] }
    congr 1
    have hall : ∀ p ∈ e.attrs, (p.1 == k) = false := by
      intro p hp
      unfold Elem.hasAttr Elem.getAttr at h
      cases hf : e.attrs.find? (fun q => q.1 == k) with
      | none =>
        have := List.find?_eq_none.mp hf p hp
        simpa using this
      | some q => rw [hf] at h; simp at h
    rw [List.map_append]
    have hid : (e.attrs.map fun p => if p.1 == k then (p.1, w) else p) = e.attrs.map id :=
      List.map_congr_left (fun p hp => by simp [hall p hp])
    rw [hid, List.map_id]
    simp

theorem Elem.classRemove_setAttr (e : Elem) (k v c : String) :
    (e.setAttr k v).classRemove c = (e.classRemove c).setAttr k v := by
  unfold Elem.setAttr
  rw [show (e.classRemove c).hasAttr k = e.hasAttr k from rfl]
  split <;> rfl

theorem Elem.classAdd_setAttr (e : Elem) (k v c : String) :
    (e.setAttr k v).classAdd c = (e.classAdd c).setAttr k v := by
  unfold Elem.classAdd
  rw [Elem.classes_setAttr]
  split
  · rfl
  · unfold Elem.setAttr
    rw [show ({ e with classes := e.classes ++ [c] } : Elem).hasAttr k = e.hasAttr k from rfl]
    split <;> rfl

theorem Elem.classRemove_classRemove_self (e : Elem) (c : String) :
    (e.classRemove c).classRemove c = e.classRemove c := by
  unfold Elem.classRemove
  simp [List.filter_filter]

theorem Elem.classAdd_classAdd_self (e : Elem) (c : String) :
    (e.classAdd c).classAdd c = e.classAdd c := by
  unfold Elem.classAdd
  split
  · next h => simp [h]
  · next h =>
    have : (({ e with classes := e.classes ++ [c] } : Elem).classes.contains c) = true := by
      simp [List.elem_eq_mem, List.mem_append]
    simp [this]

theorem Elem.classRemove_comm (e : Elem) (c c' : String) :
    (e.classRemove c).classRemove c' = (e.classRemove c').classRemove c := by
  unfold Elem.classRemove
  simp only [List.filter_filter]
  congr 1
  apply List.filter_congr
  intro x _
  rw [Bool.and_comm]

/-! Idempotence of the per-element mutations used through domForEach. -/

theorem dT_idem (ac : String) (e : Elem) : dT ac (dT ac e) = dT ac e := by
  unfold dT
  rw [Elem.classRemove_setAttr, Elem.classRemove_classRemove_self, Elem.setAttr_setAttr_same]

theorem aT_idem (ac : String) (e : Elem) : aT ac (aT ac e) = aT ac e := by
  unfold aT
  rw [Elem.classAdd_setAttr, Elem.classAdd_classAdd_self, Elem.setAttr_setAttr_same]

theorem dPi_idem (ac : String) (e : Elem) : dPi ac (dPi ac e) = dPi ac e := by
  unfold dPi
  rw [Elem.classRemove_setAttr, Elem.classRemove_classRemove_self, Elem.setAttr_setAttr_same]

theorem aP_idem (ac : String) (e : Elem) : aP ac (aP ac e) = aP ac e := by
  unfold aP
  rw [Elem.classAdd_setAttr, Elem.classAdd_classAdd_self, Elem.setAttr_setAttr_same]

theorem rm3_collapse (e : Elem) (a b c : String) :
    (((((e.classRemove a).classRemove b).classRemove c).classRemove a).classRemove b).classRemove c
      = ((e.classRemove a).classRemove b).classRemove c := by
  unfold Elem.classRemove
  simp only [List.filter_filter]
  congr 1
  apply List.filter_congr
  intro x _
  cases h1 : x != a <;> cases h2 : x != b <;> cases h3 : x != c <;> simp [h1, h2, h3]

theorem dP_idem (ac : String) (e : Elem) : dP ac (dP ac e) = dP ac e := by
  unfold dP
  rw [Elem.classRemove_setAttr, Elem.classRemove_setAttr, Elem.classRemove_setAttr,
    Elem.setAttr_setAttr_same, rm3_collapse]

theorem enterPrep_idem (e : Elem) : enterPrep (enterPrep e) = enterPrep e := by
  unfold enterPrep
  rw [Elem.classAdd_setAttr, Elem.classAdd_classAdd_self, Elem.setAttr_setAttr_same]

theorem enterFinish_idem (ac : String) (e : Elem) :
    enterFinish ac (enterFinish ac e) = enterFinish ac e := by
  unfold enterFinish
  by_cases hac : ac = ANIM_CLASS_entering
  · subst hac
    set X := (e.classAdd ANIM_CLASS_entering).classRemove ANIM_CLASS_entering with hX
    have hnc : X.classes.contains ANIM_CLASS_entering = false := by
      have h2 := Elem.classContains_classRemove (e.classAdd ANIM_CLASS_entering)
        ANIM_CLASS_entering ANIM_CLASS_entering
      rw [← hX] at h2
      simpa [Elem.classContains] using h2
    show (X.classAdd ANIM_CLASS_entering).classRemove ANIM_CLASS_entering = X
    have hadd : X.classAdd ANIM_CLASS_entering =
        { X with classes := X.classes ++ [ANIM_CLASS_entering] } := by
      unfold Elem.classAdd
      rw [if_neg (by rw [hnc]; simp)]
    rw [hadd]
    have hfe : X.classes.filter (fun x => x != ANIM_CLASS_entering) = X.classes := by
      apply List.filter_eq_self.mpr
      intro a ha
      have hmem : a ∈ (e.classAdd ANIM_CLASS_entering).classes.filter
          (fun x => x != ANIM_CLASS_entering) := ha
      exact (List.mem_filter.mp hmem).2
    have hrest : ({ X with classes := X.classes ++ [ANIM_CLASS_entering] } :
        Elem).classRemove ANIM_CLASS_entering =
        { X with classes := ((X.classes ++ [ANIM_CLASS_entering]).filter
          (fun x => x != ANIM_CLASS_entering)) } := rfl
    rw [hrest, List.filter_append, hfe]
    simp
  · set X := (e.classAdd ac).classRemove ANIM_CLASS_entering with hX
    have hc : X.classes.contains ac = true := by
      have h2 := Elem.classContains_classRemove (e.classAdd ac) ANIM_CLASS_entering ac
      have h3 : (ac != ANIM_CLASS_entering) = true := by simpa using hac
      have h4 : (e.classAdd ac).classContains ac = true := by simp
      have h5 : ((e.classAdd ac).classRemove ANIM_CLASS_entering).classContains ac = true := by
        rw [h2, h3, h4]
        simp
      simpa [Elem.classContains, hX] using h5
    show (X.classAdd ac).classRemove ANIM_CLASS_entering = X
    have hadd : X.classAdd ac = X := by
      unfold Elem.classAdd
      rw [if_pos hc]
    rw [hadd, hX]
    exact Elem.classRemove_classRemove_self _ _

theorem roleP_idem (e : Elem) : roleP (roleP e) = roleP e := by
  unfold roleP
  exact Elem.setAttr_setAttr_same e _ _ _

theorem roleT_idem (e : Elem) : roleT (roleT e) = roleT e := by
  unfold roleT
  by_cases hc : (!e.hasAttr "tabindex" && e.tag != "BUTTON" && e.tag != "A") = true
  · rw [if_pos hc]
    have hc2 : (!((e.setAttr "tabindex" "0").setAttr "role" "tab").hasAttr "tabindex" &&
        ((e.setAttr "tabindex" "0").setAttr "role" "tab").tag != "BUTTON" &&
        ((e.setAttr "tabindex" "0").setAttr "role" "tab").tag != "A") = false := by
      simp
    rw [if_neg (by rw [hc2]; simp)]
    exact Elem.setAttr_setAttr_same _ _ _ _
  · rw [if_neg hc]
    have hattr : (e.setAttr "role" "tab").hasAttr "tabindex" = e.hasAttr "tabindex" := by
      simp [show ¬ ("tabindex" : String) = "role" by decide]
    have htag : (e.setAttr "role" "tab").tag = e.tag := by simp
    have hc2 : (!(e.setAttr "role" "tab").hasAttr "tabindex" &&
        (e.setAttr "role" "tab").tag != "BUTTON" &&
        (e.setAttr "role" "tab").tag != "A") = false := by
      rw [hattr, htag]
      cases hb : (!e.hasAttr "tabindex" && e.tag != "BUTTON" && e.tag != "A") with
      | false => rfl
      | true => exact absurd hb hc
    rw [if_neg (by rw [hc2]; simp)]
    exact Elem.setAttr_setAttr_same _ _ _ _

/-! ## Document-level lemmas -/

@[simp] theorem length_domModify (d : Dom) (i : Nat) (f : Elem → Elem) :
    (domModify d i f).length = d.length :=
  List.length_set d i (f (domGet d i))

@[simp] theorem length_domForEach (d : Dom) (ids : List Nat) (f : Elem → Elem) :
    (domForEach d ids f).length = d.length := by
  induction ids generalizing d with
  | nil => rfl
  | cons i ids ih =>
    show (domForEach (domModify d i f) ids f).length = d.length
    rw [ih, length_domModify]

theorem domGet_domModify (d : Dom) (i : Nat) (f : Elem → Elem) (j : Nat) :
    domGet (domModify d i f) j =
      if j = i ∧ i < d.length then f (domGet d i) else domGet d j := by
  unfold domModify domGet
  rw [List.getElem?_set]
  by_cases hij : i = j
  · subst hij
    by_cases hi : i < d.length
    · simp [hi]
    · have : d[i]? = none := by
        rw [List.getElem?_eq_none]
        omega
      simp [hi, this]
  · have hji : ¬ (j = i ∧ i < d.length) := fun h => hij h.1.symm
    simp [hij, hji]

theorem domGet_domForEach_notMem (d : Dom) (ids : List Nat) (f : Elem → Elem) (j : Nat)
    (hj : j ∉ ids) : domGet (domForEach d ids f) j = domGet d j := by
  induction ids generalizing d with
  | nil => rfl
  | cons i ids ih =>
    have hji : ¬ j = i := fun h => hj (h ▸ List.mem_cons_self i ids)
    show domGet (domForEach (domModify d i f) ids f) j = domGet d j
    rw [ih _ (fun h => hj (List.mem_cons_of_mem _ h)), domGet_domModify]
    simp [hji]

theorem domGet_domForEach_idem (d : Dom) (ids : List Nat) (f : Elem → Elem)
    (hf : ∀ e, f (f e) = f e) (j : Nat) :
    domGet (domForEach d ids f) j =
      if j ∈ ids ∧ j < d.length then f (domGet d j) else domGet d j := by
  induction ids generalizing d with
  | nil => simp [domForEach]
  | cons i ids ih =>
    show domGet (domForEach (domModify d i f) ids f) j = _
    rw [ih, length_domModify, domGet_domModify]
    by_cases hji : j = i
    · subst hji
      by_cases hl : j < d.length <;> by_cases hm : j ∈ ids <;>
        simp [hl, hm, hf, List.mem_cons]
    · by_cases hl : j < d.length <;> by_cases hm : j ∈ ids <;>
        simp [hl, hm, hji, List.mem_cons]

theorem getAttr_domGet_domForEach (d : Dom) (ids : List Nat) (f : Elem → Elem) (k : String)
    (hf : ∀ e, (f e).getAttr k = e.getAttr k) (j : Nat) :
    (domGet (domForEach d ids f) j).getAttr k = (domGet d j).getAttr k := by
  induction ids generalizing d with
  | nil => rfl
  | cons i ids ih =>
    show (domGet (domForEach (domModify d i f) ids f) j).getAttr k = _
    rw [ih, domGet_domModify]
    split
    · next h =>
      rw [hf]
      rw [h.1]
    · rfl

theorem classes_domGet_domForEach (d : Dom) (ids : List Nat) (f : Elem → Elem)
    (hf : ∀ e, (f e).classes = e.classes) (j : Nat) :
    (domGet (domForEach d ids f) j).classes = (domGet d j).classes := by
  induction ids generalizing d with
  | nil => rfl
  | cons i ids ih =>
    show (domGet (domForEach (domModify d i f) ids f) j).classes = _
    rw [ih, domGet_domModify]
    split
    · next h =>
      rw [hf]
      rw [h.1]
    · rfl

theorem domGet_of_le (d : Dom) (j : Nat) (h : d.length ≤ j) : domGet d j = default := by
  unfold domGet
  rw [List.getElem?_eq_none h]
  rfl

/-! ## Per-index characterization of the instant activation procedure -/

def instStep (g : TabsGroup) (tabId : String) (bT bP : Bool) (e : Elem) : Elem :=
  let e1 := if bT then dT g.activeClass e else e
  let e2 := if bP then dP g.activeClass e1 else e1
  let e3 := if bT && (e2.getAttr ATTR_trigger == some tabId) then aT g.activeClass e2 else e2
  if bP && (e3.getAttr ATTR_content == some tabId) then aP g.activeClass e3 else e3

theorem domGet_activateTabInstant (d : Dom) (g : TabsGroup) (t : String) (j : Nat)
    (hj : j < d.length) :
    domGet (activateTabInstant d g t) j =
      instStep g t (decide (j ∈ g.triggers)) (decide (j ∈ g.panels)) (domGet d j) := by
  simp only [activateTabInstant, instStep]
  set d1 := domForEach d g.triggers (dT g.activeClass) with hd1
  set d2 := domForEach d1 g.panels (dP g.activeClass) with hd2
  set d3 := domForEach d2
    (g.triggers.filter (fun i => (domGet d2 i).getAttr ATTR_trigger == some t))
    (aT g.activeClass) with hd3
  have hl1 : d1.length = d.length := by rw [hd1]; exact length_domForEach d _ _
  have hl2 : d2.length = d.length := by rw [hd2, length_domForEach, hl1]
  have hl3 : d3.length = d.length := by rw [hd3, length_domForEach, hl2]
  have H1 : domGet d1 j =
      (if decide (j ∈ g.triggers) = true then dT g.activeClass (domGet d j) else domGet d j) := by
    rw [hd1, domGet_domForEach_idem _ _ _ (dT_idem _)]
    by_cases h : j ∈ g.triggers <;> simp [h, hj]
  have H2 : domGet d2 j =
      (if decide (j ∈ g.panels) = true then dP g.activeClass (domGet d1 j) else domGet d1 j) := by
    rw [hd2, domGet_domForEach_idem _ _ _ (dP_idem _)]
    by_cases h : j ∈ g.panels <;> simp [h, hj, hl1]
  have H3 : domGet d3 j =
      (if (decide (j ∈ g.triggers) && ((domGet d2 j).getAttr ATTR_trigger == some t)) = true then
        aT g.activeClass (domGet d2 j) else domGet d2 j) := by
    rw [hd3, domGet_domForEach_idem _ _ _ (aT_idem _)]
    by_cases hm : j ∈ g.triggers <;>
      by_cases hc : ((domGet d2 j).getAttr ATTR_trigger == some t) = true <;>
        simp [List.mem_filter, hm, hc, hj, hl2]
  have H4 : domGet (domForEach d3
      (g.panels.filter (fun i => (domGet d3 i).getAttr ATTR_content == some t))
      (aP g.activeClass)) j =
      (if (decide (j ∈ g.panels) && ((domGet d3 j).getAttr ATTR_content == some t)) = true then
        aP g.activeClass (domGet d3 j) else domGet d3 j) := by
    rw [domGet_domForEach_idem _ _ _ (aP_idem _)]
    by_cases hm : j ∈ g.panels <;>
      by_cases hc : ((domGet d3 j).getAttr ATTR_content == some t) = true <;>
        simp [List.mem_filter, hm, hc, hj, hl3]
  rw [H4, H3, H2, H1]

theorem domGet_activateTabInstant_oob (d : Dom) (g : TabsGroup) (t : String) (j : Nat)
    (hj : d.length ≤ j) :
    domGet (activateTabInstant d g t) j = domGet d j := by
  rw [domGet_of_le d j hj, domGet_of_le]
  simp only [activateTabInstant, length_domForEach]
  exact hj

/-! ## Class-list operations and their algebra -/

def rmCl (c : String) (cl : List String) : List String :=
  cl.filter (fun x => x != c)

def addCl (c : String) (cl : List String) : List String :=
  if cl.contains c then cl else cl ++ [c]

@[simp] theorem classes_classRemove (e : Elem) (c : String) :
    (e.classRemove c).classes = rmCl c e.classes := rfl

@[simp] theorem classes_classAdd (e : Elem) (c : String) :
    (e.classAdd c).classes = addCl c e.classes := by
  unfold Elem.classAdd addCl
  split <;> rfl

@[simp] theorem contains_rmCl (c c' : String) (cl : List String) :
    (rmCl c' cl).contains c = (c != c' && cl.contains c) := by
  unfold rmCl
  by_cases h : c = c'
  · subst h
    simp [List.elem_eq_mem, List.mem_filter]
  · have hb : (c != c') = true := by simpa using h
    simp only [hb, Bool.true_and, List.elem_eq_mem]
    simp [List.mem_filter, h]

@[simp] theorem contains_append_cl (c : String) (a b : List String) :
    ((a ++ b).contains c) = (a.contains c || b.contains c) := by
  simp [List.elem_eq_mem, List.mem_append]

theorem rmCl_append (c : String) (a b : List String) :
    rmCl c (a ++ b) = rmCl c a ++ rmCl c b :=
  List.filter_append a b

@[simp] theorem rmCl_single_self (c : String) : rmCl c [c] = [] := by
  simp [rmCl]

@[simp] theorem rmCl_rmCl_self (c : String) (cl : List String) :
    rmCl c (rmCl c cl) = rmCl c cl := by
  unfold rmCl
  rw [List.filter_filter]
  apply List.filter_congr
  intro x _
  cases h : x != c <;> simp [h]

theorem rmCl_comm (c c' : String) (cl : List String) :
    rmCl c (rmCl c' cl) = rmCl c' (rmCl c cl) := by
  unfold rmCl
  rw [List.filter_filter, List.filter_filter]
  apply List.filter_congr
  intro x _
  rw [Bool.and_comm]

theorem addCl_of_not_contains (c : String) (cl : List String) (h : cl.contains c = false) :
    addCl c cl = cl ++ [c] := by
  unfold addCl
  rw [h]
  rfl

theorem addCl_of_contains (c : String) (cl : List String) (h : cl.contains c = true) :
    addCl c cl = cl := by
  unfold addCl
  rw [h]
  rfl

theorem addCl_addCl_self (c : String) (cl : List String) :
    addCl c (addCl c cl) = addCl c cl := by
  by_cases h : cl.contains c = true
  · rw [addCl_of_contains c cl h]
    exact addCl_of_contains c cl h
  · have hf : cl.contains c = false := by
      cases hb : cl.contains c
      · rfl
      · exact absurd hb h
    rw [addCl_of_not_contains c cl hf]
    apply addCl_of_contains
    simp

/-! ## Observable DOM state: class list plus the two aria attributes -/

def Elem.obs (e : Elem) : List String × Option String × Option String :=
  (e.classes, e.getAttr ariaSelected, e.getAttr ariaHidden)

def domObsEq (d1 d2 : Dom) : Prop :=
  d1.length = d2.length ∧ ∀ j, (domGet d1 j).obs = (domGet d2 j).obs

/-! Observable components of the per-element mutations. -/

@[simp] theorem classes_dT (ac : String) (e : Elem) :
    (dT ac e).classes = rmCl ac e.classes := by
  simp [dT]

@[simp] theorem classes_aT (ac : String) (e : Elem) :
    (aT ac e).classes = addCl ac e.classes := by
  simp [aT]

@[simp] theorem classes_dP (ac : String) (e : Elem) :
    (dP ac e).classes = rmCl ANIM_CLASS_entering (rmCl ANIM_CLASS_leaving (rmCl ac e.classes)) := by
  simp [dP]

@[simp] theorem classes_aP (ac : String) (e : Elem) :
    (aP ac e).classes = addCl ac e.classes := by
  simp [aP]

@[simp] theorem sel_dT (ac : String) (e : Elem) :
    (dT ac e).getAttr ariaSelected = some "false" := by
  simp [dT]

@[simp] theorem sel_aT (ac : String) (e : Elem) :
    (aT ac e).getAttr ariaSelected = some "true" := by
  simp [aT]

@[simp] theorem hid_dP (ac : String) (e : Elem) :
    (dP ac e).getAttr ariaHidden = some "true" := by
  simp [dP]

@[simp] theorem hid_aP (ac : String) (e : Elem) :
    (aP ac e).getAttr ariaHidden = some "false" := by
  simp [aP]

@[simp] theorem hid_dT (ac : String) (e : Elem) :
    (dT ac e).getAttr ariaHidden = e.getAttr ariaHidden := by
  simp [dT, ariaHidden, ariaSelected]

@[simp] theorem hid_aT (ac : String) (e : Elem) :
    (aT ac e).getAttr ariaHidden = e.getAttr ariaHidden := by
  simp [aT, ariaHidden, ariaSelected]

@[simp] theorem sel_dP (ac : String) (e : Elem) :
    (dP ac e).getAttr ariaSelected = e.getAttr ariaSelected := by
  simp [dP, ariaHidden, ariaSelected]

@[simp] theorem sel_aP (ac : String) (e : Elem) :
    (aP ac e).getAttr ariaSelected = e.getAttr ariaSelected := by
  simp [aP, ariaHidden, ariaSelected]

theorem getAttr_dT_ne (ac k : String) (e : Elem) (hk : ¬ k = ariaSelected) :
    (dT ac e).getAttr k = e.getAttr k := by
  simp [dT, hk]

theorem getAttr_aT_ne (ac k : String) (e : Elem) (hk : ¬ k = ariaSelected) :
    (aT ac e).getAttr k = e.getAttr k := by
  simp [aT, hk]

theorem getAttr_dP_ne (ac k : String) (e : Elem) (hk : ¬ k = ariaHidden) :
    (dP ac e).getAttr k = e.getAttr k := by
  simp [dP, hk]

theorem getAttr_aP_ne (ac k : String) (e : Elem) (hk : ¬ k = ariaHidden) :
    (aP ac e).getAttr k = e.getAttr k := by
  simp [aP, hk]

theorem getAttr_dPi_ne (ac k : String) (e : Elem) (hk : ¬ k = ariaHidden) :
    (dPi ac e).getAttr k = e.getAttr k := by
  simp [dPi, hk]

@[simp] theorem getAttr_exitStart (ac k : String) (e : Elem) :
    (exitStart ac e).getAttr k = e.getAttr k := by
  simp [exitStart]

theorem getAttr_exitCleanup_ne (k : String) (e : Elem) (hk : ¬ k = ariaHidden) :
    (exitCleanup e).getAttr k = e.getAttr k := by
  simp [exitCleanup, hk]

theorem getAttr_enterPrep_ne (k : String) (e : Elem) (hk : ¬ k = ariaHidden) :
    (enterPrep e).getAttr k = e.getAttr k := by
  simp [enterPrep, hk]

@[simp] theorem getAttr_enterFinish (ac k : String) (e : Elem) :
    (enterFinish ac e).getAttr k = e.getAttr k := by
  simp [enterFinish]

/-! ## Collapse lemmas for class-list operation chains -/

theorem addRm_idem (c : String) (cl : List String) :
    addCl c (rmCl c (addCl c (rmCl c cl))) = addCl c (rmCl c cl) := by
  have h : (rmCl c cl).contains c = false := by
    simp [rmCl, List.elem_eq_mem, List.mem_filter]
  rw [addCl_of_not_contains c (rmCl c cl) h, rmCl_append, rmCl_rmCl_self,
    rmCl_single_self, List.append_nil]
  exact addCl_of_not_contains c (rmCl c cl) h

theorem rmCl3_idem (a b c : String) (cl : List String) :
    rmCl c (rmCl b (rmCl a (rmCl c (rmCl b (rmCl a cl))))) = rmCl c (rmCl b (rmCl a cl)) := by
  unfold rmCl
  simp only [List.filter_filter]
  apply List.filter_congr
  intro x _
  cases h1 : x != a <;> cases h2 : x != b <;> cases h3 : x != c <;> simp [h1, h2, h3]

theorem rmCl4_idem (a b c : String) (cl : List String) :
    rmCl c (rmCl b (rmCl a (rmCl a (rmCl c (rmCl b (rmCl a (rmCl a cl))))))) =
      rmCl c (rmCl b (rmCl a (rmCl a cl))) := by
  unfold rmCl
  simp only [List.filter_filter]
  apply List.filter_congr
  intro x _
  cases h1 : x != a <;> cases h2 : x != b <;> cases h3 : x != c <;> simp [h1, h2, h3]

theorem addR3_idem (a b c : String) (cl : List String) :
    addCl a (rmCl c (rmCl b (rmCl a (addCl a (rmCl c (rmCl b (rmCl a cl))))))) =
      addCl a (rmCl c (rmCl b (rmCl a cl))) := by
  have h : (rmCl c (rmCl b (rmCl a cl))).contains a = false := by
    simp [rmCl, List.elem_eq_mem, List.mem_filter]
  rw [addCl_of_not_contains a (rmCl c (rmCl b (rmCl a cl))) h, rmCl_append,
    rmCl_single_self, List.append_nil, rmCl3_idem]
  exact addCl_of_not_contains a (rmCl c (rmCl b (rmCl a cl))) h

theorem addR4_idem (a b c : String) (cl : List String) :
    addCl a (rmCl c (rmCl b (rmCl a (rmCl a (addCl a (rmCl c (rmCl b (rmCl a (rmCl a cl))))))))) =
      addCl a (rmCl c (rmCl b (rmCl a (rmCl a cl)))) := by
  have h : (rmCl c (rmCl b (rmCl a (rmCl a cl)))).contains a = false := by
    simp [rmCl, List.elem_eq_mem, List.mem_filter]
  rw [addCl_of_not_contains a (rmCl c (rmCl b (rmCl a (rmCl a cl)))) h, rmCl_append,
    rmCl_single_self, List.append_nil, rmCl4_idem]
  exact addCl_of_not_contains a (rmCl c (rmCl b (rmCl a (rmCl a cl)))) h

/-! ## Trigger/content attribute preservation through the activation mutations -/

@[simp] theorem trigAttr_dT (ac : String) (e : Elem) :
    (dT ac e).getAttr ATTR_trigger = e.getAttr ATTR_trigger :=
  getAttr_dT_ne ac _ e (by decide)

@[simp] theorem trigAttr_aT (ac : String) (e : Elem) :
    (aT ac e).getAttr ATTR_trigger = e.getAttr ATTR_trigger :=
  getAttr_aT_ne ac _ e (by decide)

@[simp] theorem trigAttr_dP (ac : String) (e : Elem) :
    (dP ac e).getAttr ATTR_trigger = e.getAttr ATTR_trigger :=
  getAttr_dP_ne ac _ e (by decide)

@[simp] theorem trigAttr_aP (ac : String) (e : Elem) :
    (aP ac e).getAttr ATTR_trigger = e.getAttr ATTR_trigger :=
  getAttr_aP_ne ac _ e (by decide)

@[simp] theorem contAttr_dT (ac : String) (e : Elem) :
    (dT ac e).getAttr ATTR_content = e.getAttr ATTR_content :=
  getAttr_dT_ne ac _ e (by decide)

@[simp] theorem contAttr_aT (ac : String) (e : Elem) :
    (aT ac e).getAttr ATTR_content = e.getAttr ATTR_content :=
  getAttr_aT_ne ac _ e (by decide)

@[simp] theorem contAttr_dP (ac : String) (e : Elem) :
    (dP ac e).getAttr ATTR_content = e.getAttr ATTR_content :=
  getAttr_dP_ne ac _ e (by decide)

@[simp] theorem contAttr_aP (ac : String) (e : Elem) :
    (aP ac e).getAttr ATTR_content = e.getAttr ATTR_content :=
  getAttr_aP_ne ac _ e (by decide)

/-! ## Closed forms of instStep per flag combination -/

theorem instStep_ff (g : TabsGroup) (t : String) (e : Elem) :
    instStep g t false false e = e := by
  simp [instStep]

theorem instStep_tf (g : TabsGroup) (t : String) (e : Elem) :
    instStep g t true false e =
      (if (e.getAttr ATTR_trigger == some t) = true then aT g.activeClass (dT g.activeClass e)
       else dT g.activeClass e) := by
  cases hc : e.getAttr ATTR_trigger == some t <;> simp [instStep, hc]

theorem instStep_ft (g : TabsGroup) (t : String) (e : Elem) :
    instStep g t false true e =
      (if (e.getAttr ATTR_content == some t) = true then aP g.activeClass (dP g.activeClass e)
       else dP g.activeClass e) := by
  cases hc : e.getAttr ATTR_content == some t <;> simp [instStep, hc]

theorem instStep_tt (g : TabsGroup) (t : String) (e : Elem) :
    instStep g t true true e =
      (if (e.getAttr ATTR_trigger == some t) = true then
        (if (e.getAttr ATTR_content == some t) = true then
          aP g.activeClass (aT g.activeClass (dP g.activeClass (dT g.activeClass e)))
         else aT g.activeClass (dP g.activeClass (dT g.activeClass e)))
       else
        (if (e.getAttr ATTR_content == some t) = true then
          aP g.activeClass (dP g.activeClass (dT g.activeClass e))
         else dP g.activeClass (dT g.activeClass e))) := by
  cases hcT : e.getAttr ATTR_trigger == some t <;>
    cases hcP : e.getAttr ATTR_content == some t <;> simp [instStep, hcT, hcP]

/-! ## Observable idempotence of the per-element instant activation step -/

theorem instStep_obs_idem (g : TabsGroup) (t : String) (bT bP : Bool) (e : Elem) :
    (instStep g t bT bP (instStep g t bT bP e)).obs = (instStep g t bT bP e).obs := by
  cases bT <;> cases bP
  · rw [instStep_ff, instStep_ff]
  · simp only [instStep_ft]
    cases hc : e.getAttr ATTR_content == some t
    · simp [hc, dP_idem]
    · simp [hc, Elem.obs, addR3_idem]
  · simp only [instStep_tf]
    cases hc : e.getAttr ATTR_trigger == some t
    · simp [hc, dT_idem]
    · simp [hc, Elem.obs, addRm_idem]
  · simp only [instStep_tt]
    cases hcT : e.getAttr ATTR_trigger == some t <;>
      cases hcP : e.getAttr ATTR_content == some t
    · simp [hcT, hcP, Elem.obs, rmCl3_idem]
    · simp [hcT, hcP, Elem.obs, addR3_idem]
    · simp [hcT, hcP, Elem.obs, addR3_idem]
    · simp [hcT, hcP, Elem.obs, addCl_addCl_self, addR3_idem]

@[simp] theorem length_activateTabInstant (d : Dom) (g : TabsGroup) (t : String) :
    (activateTabInstant d g t).length = d.length := by
  simp only [activateTabInstant, length_domForEach]

/-- C3: the instant activation procedure is idempotent: for every TabGroup and
every target tab identifier, invoking it twice in succession with the same
target yields the same observable DOM state (classes, aria-selected,
aria-hidden on every element) as invoking it once. -/
theorem tabs_C3_instant_idempotent (d : Dom) (g : TabsGroup) (t : String) :
    domObsEq (activateTabInstant (activateTabInstant d g t) g t) (activateTabInstant d g t) := by
  constructor
  · simp
  · intro j
    by_cases hj : j < d.length
    · rw [domGet_activateTabInstant (activateTabInstant d g t) g t j (by simpa using hj),
        domGet_activateTabInstant d g t j hj]
      exact instStep_obs_idem g t _ _ _
    · have hj' : d.length ≤ j := Nat.le_of_not_lt hj
      rw [domGet_activateTabInstant_oob (activateTabInstant d g t) g t j (by simpa using hj'),
        domGet_activateTabInstant_oob d g t j hj']

/-! ## Registry lemmas -/

theorem find?_map_setEntry (l : Registry) (n : String) (g : TabsGroup)
    (h : l.any (fun p => p.1 == n) = true) :
    (l.map (fun p => if p.1 == n then (n, g) else p)).find? (fun p => p.1 == n) = some (n, g) := by
  induction l with
  | nil => simp at h
  | cons p l ih =>
    by_cases hp : p.1 = n
    · have hb : (p.1 == n) = true := by simpa using hp
      simp [List.find?_cons, hp]
    · have hp' : (p.1 == n) = false := by simpa using hp
      have h' : l.any (fun p => p.1 == n) = true := by
        simp only [List.any_cons, hp', Bool.false_or] at h
        exact h
      simp only [List.map_cons]
      rw [if_neg (by simp [hp'])]
      rw [List.find?_cons_of_neg _ (by simp [hp'])]
      exact ih h'

theorem regFind_regSet_self (r : Registry) (n : String) (g : TabsGroup) :
    regFind (regSet r n g) n = some g := by
  unfold regFind regSet
  by_cases h : r.any (fun p => p.1 == n) = true
  · rw [if_pos h, find?_map_setEntry r n g h]
    rfl
  · rw [if_neg h, List.find?_append]
    have hnone : r.find? (fun p => p.1 == n) = none := by
      rw [List.find?_eq_none]
      intro p hp hb
      exact h (List.any_eq_true.mpr ⟨p, hp, hb⟩)
    simp [hnone, List.find?_cons]

/-! ## Claim C2: requests during an in-flight animation are dropped -/

/-- C2: for every registered group whose isAnimating flag is true, an
activation request is a complete no-op (no state change, nothing queued, no
report), so the active tab after the transition settles is unchanged by the
dropped request. -/
theorem tabs_C2_animating_noop (st : St) (n t : String) (g : TabsGroup) (evs : List Event)
    (hg : regFind st.reg n = some g) (ha : g.isAnimating = true) :
    activateTab st n t = st ∧ run st (Event.activate n t :: evs) = run st evs := by
  have h1 : activateTab st n t = st := by
    unfold activateTab
    rw [hg]
    simp [ha]
  refine ⟨h1, ?_⟩
  show run (step st (Event.activate n t)) evs = run st evs
  rw [show step st (Event.activate n t) = activateTab st n t from rfl, h1]

/-- C4: for every registered idle group, a request whose target is the
currently active tab (the active panel is among the panels matching the
target) performs zero state mutation. -/
theorem tabs_C4_same_tab_noop (st : St) (n t : String) (g : TabsGroup) (cp : Nat)
    (hg : regFind st.reg n = some g) (hIdle : g.isAnimating = false)
    (hcp : g.panels.find? (fun i => (domGet st.dom i).classContains g.activeClass) = some cp)
    (hmem : (g.panels.filter (fun i => (domGet st.dom i).getAttr ATTR_content == some t)).contains
      cp = true) :
    activateTab st n t = st := by
  unfold activateTab
  rw [hg]
  simp only [hIdle, Bool.false_eq_true, if_false]
  rw [hcp]
  split
  · rfl
  · next hguard => exact absurd hmem (by simpa using hguard)

theorem init_abort_unchanged (st : St) (n : String)
    (h : queryTriggers st.dom n = [] ∨ queryPanels st.dom n = []) :
    (initTabsGroup st n).dom = st.dom ∧ (initTabsGroup st n).reg = st.reg := by
  unfold initTabsGroup
  rcases h with h | h
  · rw [h]
    simp
  · rw [h]
    by_cases h1 : (queryTriggers st.dom n).isEmpty = true
    · rw [if_pos h1]
      simp
    · rw [if_neg h1]
      simp

theorem init_success_registered (st : St) (n : String)
    (h1 : ¬ queryTriggers st.dom n = []) (h2 : ¬ queryPanels st.dom n = []) :
    (regFind (initTabsGroup st n).reg n).isSome = true := by
  unfold initTabsGroup
  rw [if_neg (by simpa using h1), if_neg (by simpa using h2)]
  simp only [List.headD]
  split
  · split
    · rw [regFind_regSet_self]
      rfl
    · rw [regFind_regSet_self]
      rfl
  · rw [regFind_regSet_self]
    rfl

theorem init_not_registered_unchanged (st : St) (n : String)
    (h : (regFind (initTabsGroup st n).reg n).isSome = false) :
    (initTabsGroup st n).dom = st.dom ∧ (initTabsGroup st n).reg = st.reg := by
  by_cases h1 : queryTriggers st.dom n = []
  · exact init_abort_unchanged st n (Or.inl h1)
  · by_cases h2 : queryPanels st.dom n = []
    · exact init_abort_unchanged st n (Or.inr h2)
    · rw [init_success_registered st n h1 h2] at h
      simp at h

/-- C6: initialization of a group whose trigger query or panel query is empty
aborts without registering: registry and DOM are untouched, and a fresh
identifier stays absent from the registry. -/
theorem tabs_C6_empty_query_aborts (st : St) (n : String)
    (h : queryTriggers st.dom n = [] ∨ queryPanels st.dom n = []) :
    (initTabsGroup st n).dom = st.dom ∧ (initTabsGroup st n).reg = st.reg ∧
      (regFind st.reg n = none → regFind (initTabsGroup st n).reg n = none) := by
  have hu := init_abort_unchanged st n h
  refine ⟨hu.1, hu.2, ?_⟩
  intro hnone
  rw [hu.2, hnone]

/-- C7: a successfully initialized group's configuration is derived entirely
from the first discovered trigger: activeClass from its active-class attribute
(default constant when absent or empty), the animate flag from the presence of
the animate attribute, and the duration from its parsed duration attribute
(default constant 300 when absent or empty); later triggers never appear in
the derivation. -/
theorem tabs_C7_config_from_first_trigger (st : St) (n : String) (i : Nat) (rest : List Nat)
    (ht : queryTriggers st.dom n = i :: rest) (hp : ¬ (queryPanels st.dom n).isEmpty = true) :
    ∃ g, regFind (initTabsGroup st n).reg n = some g ∧
      g.activeClass = deriveActiveClass (domGet st.dom i) ∧
      g.animate = (domGet st.dom i).hasAttr ATTR_animate ∧
      g.duration = deriveDuration (domGet st.dom i) := by
  unfold initTabsGroup
  rw [ht]
  simp only [List.isEmpty_cons, Bool.false_eq_true, if_false, List.headD_cons]
  rw [if_neg hp]
  split
  · split
    · exact ⟨_, regFind_regSet_self _ _ _, rfl, rfl, rfl⟩
    · exact ⟨_, regFind_regSet_self _ _ _, rfl, rfl, rfl⟩
  · exact ⟨_, regFind_regSet_self _ _ _, rfl, rfl, rfl⟩

/-- C8: switchTab delegates to the activation state machine when the group is
registered; otherwise it attempts group initialization first and retries
exactly when that registered the group; when the group is still unregistered
it only reports: registry and DOM are left untouched. -/
theorem tabs_C8_switchTab_delegation (st : St) (n t : String) :
    ((regFind st.reg n).isSome = true → switchTab st n t = activateTab st n t) ∧
    ((regFind st.reg n).isSome = false →
      ((regFind (initTabsGroup st n).reg n).isSome = true →
        switchTab st n t = activateTab (initTabsGroup st n) n t) ∧
      ((regFind (initTabsGroup st n).reg n).isSome = false →
        (switchTab st n t).dom = st.dom ∧ (switchTab st n t).reg = st.reg ∧
        (switchTab st n t).log =
          (initTabsGroup st n).log ++ ["warn: cannot switch tab: " ++ n])) := by
  refine ⟨?_, ?_⟩
  · intro h
    unfold switchTab
    rw [if_pos h]
  · intro h
    refine ⟨?_, ?_⟩
    · intro h2
      unfold switchTab
      rw [if_neg (by simp [h]), if_pos h2]
    · intro h2
      have hu := init_not_registered_unchanged st n h2
      unfold switchTab
      rw [if_neg (by simp [h]), if_neg (by simp [h2])]
      exact ⟨hu.1, hu.2, rfl⟩

/-! ## Claim C9: getActiveTab -/

/-- The claim as stated: null for an unknown group or when no trigger is
active; otherwise the (non-null) trigger-attribute value of a trigger that
carries the active class. -/
def C9Claim : Prop :=
  ∀ (st : St) (n : String),
    (regFind st.reg n = none → getActiveTab st n = none) ∧
    ∀ g, regFind st.reg n = some g →
      ((∀ i ∈ g.triggers, (domGet st.dom i).classContains g.activeClass = false) →
        getActiveTab st n = none) ∧
      ((∃ i ∈ g.triggers, (domGet st.dom i).classContains g.activeClass = true) →
        ∃ i ∈ g.triggers, (domGet st.dom i).classContains g.activeClass = true ∧
          ∃ s, (domGet st.dom i).getAttr ATTR_trigger = some s ∧ getActiveTab st n = some s)

def exDomC9 : Dom :=
  [{ tag := "BUTTON", attrs := [(ATTR_group, "g"), (ATTR_trigger, "")], classes := [] },
   { tag := "DIV", attrs := [(ATTR_group, "g"), (ATTR_content, "x")], classes := [] }]

def stC9 : St :=
  switchTab (initTabsGroup { dom := exDomC9, reg := [], log := [] } "g") "g" ""

def gC9 : TabsGroup :=
  { name := "g", triggers := [0], panels := [1], activeClass := "is-tab-active",
    animate := false, duration := some 300, phase := AnimPhase.idle }

/-- C9 counterexample: in a state produced by the public API itself (a group
whose only trigger has an empty trigger-attribute value, activated via
switchTab), a trigger of the group carries the active class and yet
getActiveTab returns null, refuting the claim as stated. -/
theorem tabs_C9_counterexample : ¬ C9Claim := by
  intro h
  have h2 := (h stC9 "g").2 gC9 (by decide)
  have h3 := h2.2 ⟨0, by decide, by decide⟩
  obtain ⟨i, hi, _, s, hs, hres⟩ := h3
  have hi0 : i = 0 := by simpa [gC9] using hi
  subst hi0
  have hattr : (domGet stC9.dom 0).getAttr ATTR_trigger = some "" := by decide
  rw [hattr] at hs
  have hse : s = "" := (Option.some.injEq _ _ ▸ hs).symm
  subst hse
  have hnone : getActiveTab stC9 "g" = none := by decide
  rw [hnone] at hres
  exact Option.noConfusion hres

/-- C9 amended: getActiveTab returns null for an unregistered group and when
no trigger carries the active class; otherwise it returns the trigger
attribute value of the first trigger carrying the active class, or null when
that value is absent or is the empty string. -/
theorem tabs_C9_amended (st : St) (n : String) :
    (regFind st.reg n = none → getActiveTab st n = none) ∧
    (∀ g, regFind st.reg n = some g →
      (g.triggers.find? (fun i => (domGet st.dom i).classContains g.activeClass) = none →
        getActiveTab st n = none) ∧
      (∀ i, g.triggers.find? (fun i => (domGet st.dom i).classContains g.activeClass) = some i →
        ((domGet st.dom i).getAttr ATTR_trigger = none → getActiveTab st n = none) ∧
        ((domGet st.dom i).getAttr ATTR_trigger = some "" → getActiveTab st n = none) ∧
        (∀ s, (domGet st.dom i).getAttr ATTR_trigger = some s → ¬ s = "" →
          getActiveTab st n = some s))) := by
  constructor
  · intro h
    simp only [getActiveTab, h]
  · intro g hg
    constructor
    · intro h
      simp only [getActiveTab, hg, h]
    · intro i hi
      refine ⟨?_, ?_, ?_⟩
      · intro h
        simp only [getActiveTab, hg, hi, h]
      · intro h
        simp only [getActiveTab, hg, hi, h]
        simp
      · intro s hs hne
        simp only [getActiveTab, hg, hi, hs]
        simp [hne]

/-! ## Concrete example states used by the witnesses -/

def exDom1 : Dom :=
  [{ tag := "BUTTON", attrs := [(ATTR_group, "g"), (ATTR_trigger, "a")], classes := [] },
   { tag := "DIV", attrs := [(ATTR_group, "g"), (ATTR_content, "a")], classes := [] },
   { tag := "BUTTON", attrs := [(ATTR_group, "g"), (ATTR_trigger, "b")], classes := [] },
   { tag := "DIV", attrs := [(ATTR_group, "g"), (ATTR_content, "b")], classes := [] }]

def exG2 : TabsGroup :=
  { name := "g", triggers := [0, 2], panels := [1, 3], activeClass := "is-tab-active",
    animate := true, duration := some 300, phase := AnimPhase.enterScheduled }

def exSt2 : St := { dom := exDom1, reg := [("g", exG2)], log := [] }

theorem tabs_C2_witness :
    regFind exSt2.reg "g" = some exG2 ∧ exG2.isAnimating = true ∧
      (activateTab exSt2 "g" "b" = exSt2 ∧
        run exSt2 (Event.activate "g" "b" :: []) = run exSt2 []) :=
  ⟨by decide, by decide,
    tabs_C2_animating_noop exSt2 "g" "b" exG2 [] (by decide) (by decide)⟩

def exDom4 : Dom :=
  [{ tag := "BUTTON", attrs := [(ATTR_group, "g"), (ATTR_trigger, "a")],
     classes := ["is-tab-active"] },
   { tag := "DIV", attrs := [(ATTR_group, "g"), (ATTR_content, "a")],
     classes := ["is-tab-active"] },
   { tag := "BUTTON", attrs := [(ATTR_group, "g"), (ATTR_trigger, "b")], classes := [] },
   { tag := "DIV", attrs := [(ATTR_group, "g"), (ATTR_content, "b")], classes := [] }]

def exG4 : TabsGroup :=
  { name := "g", triggers := [0, 2], panels := [1, 3], activeClass := "is-tab-active",
    animate := false, duration := some 300, phase := AnimPhase.idle }

def exSt4 : St := { dom := exDom4, reg := [("g", exG4)], log := [] }

theorem tabs_C4_witness :
    regFind exSt4.reg "g" = some exG4 ∧ exG4.isAnimating = false ∧
      exG4.panels.find? (fun i => (domGet exSt4.dom i).classContains exG4.activeClass) = some 1 ∧
      (exG4.panels.filter
        (fun i => (domGet exSt4.dom i).getAttr ATTR_content == some "a")).contains 1 = true ∧
      activateTab exSt4 "g" "a" = exSt4 :=
  ⟨by decide, by decide, by decide, by decide,
    tabs_C4_same_tab_noop exSt4 "g" "a" exG4 1 (by decide) (by decide) (by decide) (by decide)⟩

def exSt6 : St := { dom := exDom1, reg := [], log := [] }

theorem tabs_C6_witness :
    queryTriggers exSt6.dom "z" = [] ∧
      ((initTabsGroup exSt6 "z").dom = exSt6.dom ∧ (initTabsGroup exSt6 "z").reg = exSt6.reg ∧
        (regFind exSt6.reg "z" = none → regFind (initTabsGroup exSt6 "z").reg "z" = none)) :=
  ⟨by decide, tabs_C6_empty_query_aborts exSt6 "z" (Or.inl (by decide))⟩

theorem tabs_C7_witness :
    queryTriggers exSt6.dom "g" = 0 :: [2] ∧ ¬ (queryPanels exSt6.dom "g").isEmpty = true ∧
      (∃ g, regFind (initTabsGroup exSt6 "g").reg "g" = some g ∧
        g.activeClass = deriveActiveClass (domGet exSt6.dom 0) ∧
        g.animate = (domGet exSt6.dom 0).hasAttr ATTR_animate ∧
        g.duration = deriveDuration (domGet exSt6.dom 0)) :=
  ⟨by decide, by decide,
    tabs_C7_config_from_first_trigger exSt6 "g" 0 [2] (by decide) (by decide)⟩

theorem tabs_C8_witness :
    ((regFind exSt4.reg "g").isSome = true ∧
      switchTab exSt4 "g" "b" = activateTab exSt4 "g" "b") ∧
    ((regFind exSt6.reg "zz").isSome = false ∧
      (regFind (initTabsGroup exSt6 "zz").reg "zz").isSome = false ∧
      (switchTab exSt6 "zz" "b").dom = exSt6.dom ∧
      (switchTab exSt6 "zz" "b").reg = exSt6.reg ∧
      (switchTab exSt6 "zz" "b").log =
        (initTabsGroup exSt6 "zz").log ++ ["warn: cannot switch tab: " ++ "zz"]) :=
  ⟨⟨by decide, (tabs_C8_switchTab_delegation exSt4 "g" "b").1 (by decide)⟩,
    by decide, by decide,
    ((tabs_C8_switchTab_delegation exSt6 "zz" "b").2 (by decide)).2 (by decide)⟩

/-! ## Per-index characterizations of the activation DOM passes -/

@[simp] theorem length_trigUpdate (d : Dom) (g : TabsGroup) (t : String) :
    (trigUpdate d g t).length = d.length := by
  simp only [trigUpdate, length_domForEach]

@[simp] theorem length_panelSwitchInstant (d : Dom) (g : TabsGroup) (nps : List Nat) :
    (panelSwitchInstant d g nps).length = d.length := by
  simp only [panelSwitchInstant, length_domForEach]

@[simp] theorem length_exitPhaseDom (d : Dom) (g : TabsGroup) (cp : Nat) (nps : List Nat) :
    (exitPhaseDom d g cp nps).length = d.length := by
  simp only [exitPhaseDom, length_domForEach, length_domModify]

theorem domGet_trigUpdate (d : Dom) (g : TabsGroup) (t : String) (j : Nat) (hj : j < d.length) :
    domGet (trigUpdate d g t) j =
      (if j ∈ g.triggers then
        (if ((domGet d j).getAttr ATTR_trigger == some t) = true then
          aT g.activeClass (dT g.activeClass (domGet d j))
         else dT g.activeClass (domGet d j))
       else domGet d j) := by
  unfold trigUpdate
  set d1 := domForEach d g.triggers (dT g.activeClass) with hd1
  have hl1 : d1.length = d.length := by rw [hd1]; exact length_domForEach d _ _
  have H1 : ∀ i, i < d.length →
      domGet d1 i = if i ∈ g.triggers then dT g.activeClass (domGet d i) else domGet d i := by
    intro i hi
    rw [hd1, domGet_domForEach_idem _ _ _ (dT_idem _)]
    by_cases h : i ∈ g.triggers <;> simp [h, hi]
  rw [domGet_domForEach_idem _ _ _ (aT_idem _)]
  by_cases hm : j ∈ g.triggers
  · by_cases hc : ((domGet d j).getAttr ATTR_trigger == some t) = true
    · have hfm : j ∈ g.triggers.filter
          (fun i => (domGet d1 i).getAttr ATTR_trigger == some t) := by
        rw [List.mem_filter]
        refine ⟨hm, ?_⟩
        rw [H1 j hj]
        simpa [hm] using hc
      simp [hfm, hl1, hj, H1 j hj, hm, hc]
    · have hfm : ¬ j ∈ g.triggers.filter
          (fun i => (domGet d1 i).getAttr ATTR_trigger == some t) := by
        intro hmem
        have h2 := (List.mem_filter.mp hmem).2
        rw [H1 j hj] at h2
        simp only [hm, if_pos, if_true] at h2
        exact hc (by simpa [hm] using h2)
      simp [hfm, H1 j hj, hm, hc]
  · have hfm : ¬ j ∈ g.triggers.filter
        (fun i => (domGet d1 i).getAttr ATTR_trigger == some t) := by
      intro hmem
      exact hm (List.mem_filter.mp hmem).1
    simp [hfm, H1 j hj, hm]

theorem domGet_panelSwitchInstant (d : Dom) (g : TabsGroup) (nps : List Nat) (j : Nat)
    (hj : j < d.length) :
    domGet (panelSwitchInstant d g nps) j =
      (if j ∈ nps then
        aP g.activeClass (if j ∈ g.panels then dPi g.activeClass (domGet d j) else domGet d j)
       else (if j ∈ g.panels then dPi g.activeClass (domGet d j) else domGet d j)) := by
  unfold panelSwitchInstant
  set d1 := domForEach d g.panels (dPi g.activeClass) with hd1
  have hl1 : d1.length = d.length := by rw [hd1]; exact length_domForEach d _ _
  have H1 : domGet d1 j =
      if j ∈ g.panels then dPi g.activeClass (domGet d j) else domGet d j := by
    rw [hd1, domGet_domForEach_idem _ _ _ (dPi_idem _)]
    by_cases h : j ∈ g.panels <;> simp [h, hj]
  rw [domGet_domForEach_idem _ _ _ (aP_idem _)]
  by_cases hm : j ∈ nps <;> simp [hm, hj, hl1, H1]

theorem domGet_exitPhaseDom (d : Dom) (g : TabsGroup) (cp : Nat) (nps : List Nat) (j : Nat)
    (hj : j < d.length) (hcp : cp < d.length) :
    domGet (exitPhaseDom d g cp nps) j =
      (let e1 := if j = cp then exitCleanup (domGet d j) else domGet d j
       let e2 := if j ∈ g.panels ∧ ¬ j ∈ nps then dP g.activeClass e1 else e1
       let e3 := if j ∈ nps then enterPrep e2 else e2
       if j ∈ nps then enterFinish g.activeClass e3 else e3) := by
  unfold exitPhaseDom
  set d1 := domModify d cp exitCleanup with hd1
  have hl1 : d1.length = d.length := by rw [hd1]; exact length_domModify d _ _
  set d2 := domForEach d1 (g.panels.filter (fun i => !(nps.contains i))) (dP g.activeClass)
    with hd2
  have hl2 : d2.length = d.length := by rw [hd2, length_domForEach, hl1]
  set d3 := domForEach d2 nps enterPrep with hd3
  have hl3 : d3.length = d.length := by rw [hd3, length_domForEach, hl2]
  have H1 : domGet d1 j = if j = cp then exitCleanup (domGet d j) else domGet d j := by
    rw [hd1, domGet_domModify]
    by_cases h : j = cp
    · subst h
      simp [hj]
    · simp [h]
  have H2 : domGet d2 j =
      if j ∈ g.panels ∧ ¬ j ∈ nps then dP g.activeClass (domGet d1 j) else domGet d1 j := by
    rw [hd2, domGet_domForEach_idem _ _ _ (dP_idem _), hl1]
    by_cases h : j ∈ g.panels.filter (fun i => !(nps.contains i))
    · have h2 := List.mem_filter.mp h
      have h3 : ¬ j ∈ nps := by
        have hfalse := h2.2
        simp only [Bool.not_eq_true'] at hfalse
        intro hmem
        have h4 : List.elem j nps = true := List.elem_iff.mpr hmem
        have h5 : List.elem j nps = false := hfalse
        rw [h4] at h5
        exact Bool.noConfusion h5
      simp [h, hj, h2.1, h3]
    · have h3 : ¬ (j ∈ g.panels ∧ ¬ j ∈ nps) := by
        intro hc
        have helem : List.elem j nps = false := by
          cases hb : List.elem j nps
          · rfl
          · exact absurd (List.elem_iff.mp hb) hc.2
        exact h (List.mem_filter.mpr ⟨hc.1, by
          show (!nps.contains j) = true
          rw [show nps.contains j = false from helem]
          rfl⟩)
      simp [h, h3]
  have H3 : domGet d3 j = if j ∈ nps then enterPrep (domGet d2 j) else domGet d2 j := by
    rw [hd3, domGet_domForEach_idem _ _ _ enterPrep_idem, hl2]
    by_cases h : j ∈ nps <;> simp [h, hj]
  rw [domGet_domForEach_idem _ _ _ (enterFinish_idem _), hl3, H3, H2, H1]
  by_cases h : j ∈ nps <;> simp [h, hj]

@[simp] theorem contains_nil_nat (a : Nat) : ([] : List Nat).contains a = false := rfl

/-! ## Initialization: attribute preservation and success form -/

theorem getAttr_roleP_ne (k : String) (e : Elem) (h : ¬ k = "role") :
    (roleP e).getAttr k = e.getAttr k := by
  simp [roleP, h]

theorem getAttr_roleT_ne (k : String) (e : Elem) (h1 : ¬ k = "tabindex") (h2 : ¬ k = "role") :
    (roleT e).getAttr k = e.getAttr k := by
  unfold roleT
  simp only [Elem.getAttr_setAttr, if_neg h2]
  split
  · rw [Elem.getAttr_setAttr, if_neg h1]
  · rfl

@[simp] theorem length_initRolesDom (d : Dom) (trs pns : List Nat) :
    (initRolesDom d trs pns).length = d.length := by
  simp only [initRolesDom, length_domForEach]

theorem getAttr_initRolesDom (d : Dom) (trs pns : List Nat) (k : String) (j : Nat)
    (h1 : ¬ k = "tabindex") (h2 : ¬ k = "role") :
    (domGet (initRolesDom d trs pns) j).getAttr k = (domGet d j).getAttr k := by
  unfold initRolesDom
  rw [getAttr_domGet_domForEach _ _ _ _ (fun e => getAttr_roleP_ne k e h2),
    getAttr_domGet_domForEach _ _ _ _ (fun e => getAttr_roleT_ne k e h1 h2)]

theorem hasAttr_initRolesDom (d : Dom) (trs pns : List Nat) (k : String) (j : Nat)
    (h1 : ¬ k = "tabindex") (h2 : ¬ k = "role") :
    (domGet (initRolesDom d trs pns) j).hasAttr k = (domGet d j).hasAttr k := by
  unfold Elem.hasAttr
  rw [getAttr_initRolesDom d trs pns k j h1 h2]

theorem defaultTabIdOf_congr (d d' : Dom) (trs : List Nat)
    (hdm : ∀ i, (domGet d' i).hasAttr ATTR_defaultMark = (domGet d i).hasAttr ATTR_defaultMark)
    (htr : ∀ i, (domGet d' i).getAttr ATTR_trigger = (domGet d i).getAttr ATTR_trigger) :
    defaultTabIdOf d' trs = defaultTabIdOf d trs := by
  unfold defaultTabIdOf
  have hfind : trs.find? (fun i => (domGet d' i).hasAttr ATTR_defaultMark) =
      trs.find? (fun i => (domGet d i).hasAttr ATTR_defaultMark) := by
    induction trs with
    | nil => rfl
    | cons a l ih => simp [List.find?_cons, hdm a, ih]
  rw [hfind]
  cases hf : trs.find? (fun i => (domGet d i).hasAttr ATTR_defaultMark) with
  | some i => exact htr i
  | none =>
    cases hh : trs.head? with
    | some i => exact htr i
    | none => rfl

theorem defaultTabIdOf_mem (d : Dom) (trs : List Nat) (tid : String)
    (h : defaultTabIdOf d trs = some tid) :
    ∃ i ∈ trs, (domGet d i).getAttr ATTR_trigger = some tid := by
  unfold defaultTabIdOf at h
  cases hf : trs.find? (fun i => (domGet d i).hasAttr ATTR_defaultMark) with
  | some i =>
    rw [hf] at h
    exact ⟨i, List.mem_of_find?_eq_some hf, h⟩
  | none =>
    rw [hf] at h
    cases trs with
    | nil => exact Option.noConfusion h
    | cons a l =>
      rw [List.head?_cons] at h
      exact ⟨a, List.mem_cons_self a l, h⟩

theorem mem_queryTriggers (d : Dom) (n : String) (i : Nat) :
    i ∈ queryTriggers d n ↔
      i < d.length ∧ ((domGet d i).getAttr ATTR_group == some n) = true ∧
        (domGet d i).hasAttr ATTR_trigger = true := by
  simp [queryTriggers, List.mem_filter, List.mem_range, Bool.and_eq_true, and_assoc]

theorem mem_queryPanels (d : Dom) (n : String) (i : Nat) :
    i ∈ queryPanels d n ↔
      i < d.length ∧ ((domGet d i).getAttr ATTR_group == some n) = true ∧
        (domGet d i).hasAttr ATTR_content = true := by
  simp [queryPanels, List.mem_filter, List.mem_range, Bool.and_eq_true, and_assoc]

theorem trigAttr_activateTabInstant (d : Dom) (g : TabsGroup) (t : String) (j : Nat) :
    (domGet (activateTabInstant d g t) j).getAttr ATTR_trigger =
      (domGet d j).getAttr ATTR_trigger := by
  simp only [activateTabInstant]
  rw [getAttr_domGet_domForEach _ _ _ _ (fun e => trigAttr_aP g.activeClass e),
    getAttr_domGet_domForEach _ _ _ _ (fun e => trigAttr_aT g.activeClass e),
    getAttr_domGet_domForEach _ _ _ _ (fun e => trigAttr_dP g.activeClass e),
    getAttr_domGet_domForEach _ _ _ _ (fun e => trigAttr_dT g.activeClass e)]

theorem contAttr_activateTabInstant (d : Dom) (g : TabsGroup) (t : String) (j : Nat) :
    (domGet (activateTabInstant d g t) j).getAttr ATTR_content =
      (domGet d j).getAttr ATTR_content := by
  simp only [activateTabInstant]
  rw [getAttr_domGet_domForEach _ _ _ _ (fun e => contAttr_aP g.activeClass e),
    getAttr_domGet_domForEach _ _ _ _ (fun e => contAttr_aT g.activeClass e),
    getAttr_domGet_domForEach _ _ _ _ (fun e => contAttr_dP g.activeClass e),
    getAttr_domGet_domForEach _ _ _ _ (fun e => contAttr_dT g.activeClass e)]

theorem initTabsGroup_success_form (st : St) (n : String) (tid : String)
    (htne : ¬ queryTriggers st.dom n = []) (hpne : ¬ queryPanels st.dom n = [])
    (hdflt : defaultTabIdOf st.dom (queryTriggers st.dom n) = some tid) (htid : ¬ tid = "") :
    initTabsGroup st n =
      { st with
        dom := activateTabInstant
          (initRolesDom st.dom (queryTriggers st.dom n) (queryPanels st.dom n))
          (initGroupRecord st.dom n (queryTriggers st.dom n) (queryPanels st.dom n)) tid
        reg := regSet st.reg n
          (initGroupRecord st.dom n (queryTriggers st.dom n) (queryPanels st.dom n)) } := by
  unfold initTabsGroup
  rw [if_neg (by simpa using htne), if_neg (by simpa using hpne)]
  have hpres : defaultTabIdOf
      (initRolesDom st.dom (queryTriggers st.dom n) (queryPanels st.dom n))
      (queryTriggers st.dom n) = some tid := by
    rw [defaultTabIdOf_congr st.dom
      (initRolesDom st.dom (queryTriggers st.dom n) (queryPanels st.dom n))
      (queryTriggers st.dom n)
      (fun i => hasAttr_initRolesDom _ _ _ _ i (by decide) (by decide))
      (fun i => getAttr_initRolesDom _ _ _ _ i (by decide) (by decide))]
    exact hdflt
  simp only [hpres]
  rw [if_neg (by simpa using htid)]

/-! ## Claim C5: state established by group initialization -/

/-- Exactly the triggers and panels matching `tid` are active, with the
matching aria attributes, across the whole group. -/
def activeExactly (d : Dom) (g : TabsGroup) (tid : String) : Prop :=
  (∀ i ∈ g.triggers,
    ((domGet d i).classContains g.activeClass =
      ((domGet d i).getAttr ATTR_trigger == some tid)) ∧
    (domGet d i).getAttr ariaSelected =
      some (if ((domGet d i).getAttr ATTR_trigger == some tid) = true then "true"
        else "false")) ∧
  (∀ i ∈ g.panels,
    ((domGet d i).classContains g.activeClass =
      ((domGet d i).getAttr ATTR_content == some tid)) ∧
    (domGet d i).getAttr ariaHidden =
      some (if ((domGet d i).getAttr ATTR_content == some tid) = true then "false"
        else "true"))

/-- The claim as stated: after a successful group initialization, the default
tab identifier (default-marked trigger, else first trigger) is active exactly,
across triggers and panels, with the matching aria attributes. -/
def C5Claim : Prop :=
  ∀ (st : St) (n : String) (g : TabsGroup),
    regFind (initTabsGroup st n).reg n = some g →
    ∃ tid, defaultTabIdOf st.dom (queryTriggers st.dom n) = some tid ∧
      activeExactly (initTabsGroup st n).dom g tid

/-- Helper: what a successful initialization establishes on the DOM. -/
theorem init_activeExactly (st : St) (n : String) (tid : String)
    (htne : ¬ queryTriggers st.dom n = []) (hpne : ¬ queryPanels st.dom n = [])
    (hdual : ∀ i, i < st.dom.length → ¬ ((domGet st.dom i).hasAttr ATTR_trigger = true ∧
      (domGet st.dom i).hasAttr ATTR_content = true))
    (hdflt : defaultTabIdOf st.dom (queryTriggers st.dom n) = some tid)
    (htid : ¬ tid = "") :
    regFind (initTabsGroup st n).reg n =
      some (initGroupRecord st.dom n (queryTriggers st.dom n) (queryPanels st.dom n)) ∧
    (∃ i ∈ queryTriggers st.dom n,
      (domGet (initTabsGroup st n).dom i).getAttr ATTR_trigger = some tid) ∧
    activeExactly (initTabsGroup st n).dom
      (initGroupRecord st.dom n (queryTriggers st.dom n) (queryPanels st.dom n)) tid := by
  set trs := queryTriggers st.dom n with htrs
  set pns := queryPanels st.dom n with hpns
  set grp := initGroupRecord st.dom n trs pns with hgrp
  set D := initRolesDom st.dom trs pns with hD
  have hform := initTabsGroup_success_form st n tid htne hpne hdflt htid
  rw [← htrs, ← hpns, ← hgrp, ← hD] at hform
  have hgt : grp.triggers = trs := rfl
  have hgp : grp.panels = pns := rfl
  refine ⟨?_, ?_, ?_, ?_⟩
  · rw [hform]
    exact regFind_regSet_self _ _ _
  · obtain ⟨i, hi, hattr⟩ := defaultTabIdOf_mem st.dom trs tid hdflt
    refine ⟨i, hi, ?_⟩
    rw [hform]
    show (domGet (activateTabInstant D grp tid) i).getAttr ATTR_trigger = some tid
    rw [trigAttr_activateTabInstant, hD,
      getAttr_initRolesDom st.dom trs pns ATTR_trigger i (by decide) (by decide)]
    exact hattr
  · intro i hi
    rw [hgt] at hi
    have hb : i < st.dom.length := ((mem_queryTriggers st.dom n i).mp (htrs ▸ hi)).1
    have hnp : ¬ i ∈ pns := by
      intro hmem
      exact hdual i hb ⟨((mem_queryTriggers st.dom n i).mp (htrs ▸ hi)).2.2,
        ((mem_queryPanels st.dom n i).mp (hpns ▸ hmem)).2.2⟩
    rw [hform]
    show ((domGet (activateTabInstant D grp tid) i).classContains grp.activeClass =
        ((domGet (activateTabInstant D grp tid) i).getAttr ATTR_trigger == some tid)) ∧ _
    have hbD : i < D.length := by rw [hD]; simpa using hb
    rw [domGet_activateTabInstant D grp tid i hbD]
    have hflagT : decide (i ∈ grp.triggers) = true := by
      rw [hgt]
      simpa using hi
    have hflagP : decide (i ∈ grp.panels) = false := by
      rw [hgp]
      simpa using hnp
    rw [hflagT, hflagP, instStep_tf]
    cases hc : (domGet D i).getAttr ATTR_trigger == some tid <;>
      simp [hc, aT, dT, show ¬ ATTR_trigger = ariaSelected by decide]
  · intro i hi
    rw [hgp] at hi
    have hb : i < st.dom.length := ((mem_queryPanels st.dom n i).mp (hpns ▸ hi)).1
    have hnt : ¬ i ∈ trs := by
      intro hmem
      exact hdual i hb ⟨((mem_queryTriggers st.dom n i).mp (htrs ▸ hmem)).2.2,
        ((mem_queryPanels st.dom n i).mp (hpns ▸ hi)).2.2⟩
    rw [hform]
    show ((domGet (activateTabInstant D grp tid) i).classContains grp.activeClass =
        ((domGet (activateTabInstant D grp tid) i).getAttr ATTR_content == some tid)) ∧ _
    have hbD : i < D.length := by rw [hD]; simpa using hb
    rw [domGet_activateTabInstant D grp tid i hbD]
    have hflagT : decide (i ∈ grp.triggers) = false := by
      rw [hgt]
      simpa using hnt
    have hflagP : decide (i ∈ grp.panels) = true := by
      rw [hgp]
      simpa using hi
    rw [hflagT, hflagP, instStep_ft]
    cases hc : (domGet D i).getAttr ATTR_content == some tid <;>
      simp [hc, aP, dP, show ¬ ATTR_content = ariaHidden by decide]

/-- C5 counterexample: a group whose first (and only) trigger carries the
empty string as its tab identifier is registered by initialization, but the
default-activation step is skipped, so no tab identifier is active at all. -/
def stPre5 : St := { dom := exDomC9, reg := [], log := [] }

def gC5 : TabsGroup :=
  { name := "g", triggers := [0], panels := [1], activeClass := "is-tab-active",
    animate := false, duration := some 300, phase := AnimPhase.idle }

theorem tabs_C5_counterexample : ¬ C5Claim := by
  intro h
  obtain ⟨tid, htid, hact⟩ := h stPre5 "g" gC5 (by decide)
  have hd : defaultTabIdOf stPre5.dom (queryTriggers stPre5.dom "g") = some "" := by decide
  rw [hd] at htid
  injection htid with h'
  subst h'
  have hno : ¬ activeExactly (initTabsGroup stPre5 "g").dom gC5 "" := by
    unfold activeExactly
    decide
  exact hno hact

/-- C5 amended: provided no element of the document carries both the trigger
and the content attribute, and the computed default tab identifier is a
nonempty string, a successful group initialization registers the group and
establishes exactly the default tab identifier as active, consistently across
triggers and panels, with correct aria-selected / aria-hidden values on every
element of the group. -/
theorem tabs_C5_default_active (st : St) (n : String) (tid : String)
    (htne : ¬ queryTriggers st.dom n = []) (hpne : ¬ queryPanels st.dom n = [])
    (hdual : ∀ i, i < st.dom.length → ¬ ((domGet st.dom i).hasAttr ATTR_trigger = true ∧
      (domGet st.dom i).hasAttr ATTR_content = true))
    (hdflt : defaultTabIdOf st.dom (queryTriggers st.dom n) = some tid)
    (htid : ¬ tid = "") :
    ∃ g, regFind (initTabsGroup st n).reg n = some g ∧
      (∃ i ∈ g.triggers,
        (domGet (initTabsGroup st n).dom i).getAttr ATTR_trigger = some tid) ∧
      activeExactly (initTabsGroup st n).dom g tid := by
  obtain ⟨h1, h2, h3⟩ := init_activeExactly st n tid htne hpne hdual hdflt htid
  exact ⟨_, h1, h2, h3⟩

theorem tabs_C5_witness :
    ¬ queryTriggers exSt6.dom "g" = [] ∧ ¬ queryPanels exSt6.dom "g" = [] ∧
      defaultTabIdOf exSt6.dom (queryTriggers exSt6.dom "g") = some "a" ∧
      (∃ g, regFind (initTabsGroup exSt6 "g").reg "g" = some g ∧
        (∃ i ∈ g.triggers,
          (domGet (initTabsGroup exSt6 "g").dom i).getAttr ATTR_trigger = some "a") ∧
        activeExactly (initTabsGroup exSt6 "g").dom g "a") :=
  ⟨by decide, by decide, by decide,
    tabs_C5_default_active exSt6 "g" "a" (by decide) (by decide) (by decide) (by decide)
      (by decide)⟩

/-- C10: for a registered idle group, a request whose target matches no panel
is not rejected: all triggers are deselected and exactly those matching the
target (possibly none) are selected; on the instant path every panel is
deactivated with aria-hidden "true", leaving zero active panels. -/
theorem tabs_C10_no_matching_panels (st : St) (n t : String) (g : TabsGroup)
    (hg : regFind st.reg n = some g) (hIdle : g.isAnimating = false)
    (htb : ∀ i ∈ g.triggers, i < st.dom.length)
    (hpb : ∀ i ∈ g.panels, i < st.dom.length)
    (hdisj : ∀ i ∈ g.triggers, ¬ i ∈ g.panels)
    (hnext : g.panels.filter (fun i => (domGet st.dom i).getAttr ATTR_content == some t) = []) :
    (∀ i ∈ g.triggers,
      (domGet (activateTab st n t).dom i).classContains g.activeClass =
        ((domGet st.dom i).getAttr ATTR_trigger == some t) ∧
      (domGet (activateTab st n t).dom i).getAttr ariaSelected =
        some (if ((domGet st.dom i).getAttr ATTR_trigger == some t) = true then "true"
          else "false")) ∧
    ((g.animate = false ∨
        g.panels.find? (fun i => (domGet st.dom i).classContains g.activeClass) = none) →
      ∀ i ∈ g.panels,
        (domGet (activateTab st n t).dom i).classContains g.activeClass = false ∧
        (domGet (activateTab st n t).dom i).getAttr ariaHidden = some "true") := by
  have htrig : ∀ i ∈ g.triggers,
      (domGet (trigUpdate st.dom g t) i).classContains g.activeClass =
        ((domGet st.dom i).getAttr ATTR_trigger == some t) ∧
      (domGet (trigUpdate st.dom g t) i).getAttr ariaSelected =
        some (if ((domGet st.dom i).getAttr ATTR_trigger == some t) = true then "true"
          else "false") := by
    intro i hi
    rw [domGet_trigUpdate st.dom g t i (htb i hi)]
    cases hc : (domGet st.dom i).getAttr ATTR_trigger == some t <;>
      simp [hi, hc, aT, dT, show ¬ ATTR_trigger = ariaSelected from by decide]
  have hpanel : ∀ i ∈ g.panels,
      (domGet (panelSwitchInstant (trigUpdate st.dom g t) g []) i).classContains g.activeClass =
        false ∧
      (domGet (panelSwitchInstant (trigUpdate st.dom g t) g []) i).getAttr ariaHidden =
        some "true" := by
    intro i hi
    have hlen : i < (trigUpdate st.dom g t).length := by simpa using hpb i hi
    rw [domGet_panelSwitchInstant _ g [] i hlen]
    have hni : ¬ i ∈ g.triggers := fun h => hdisj i h hi
    have hun : domGet (trigUpdate st.dom g t) i = domGet st.dom i := by
      rw [domGet_trigUpdate st.dom g t i (hpb i hi)]
      simp [hni]
    simp [hi, hun, dPi]
  have htrig2 : ∀ i ∈ g.triggers,
      domGet (panelSwitchInstant (trigUpdate st.dom g t) g []) i =
        domGet (trigUpdate st.dom g t) i := by
    intro i hi
    rw [domGet_panelSwitchInstant _ g [] i (by simpa using htb i hi)]
    simp [hdisj i hi]
  rcases hfind : g.panels.find? (fun i => (domGet st.dom i).classContains g.activeClass)
    with _ | cp
  · have hred : activateTab st n t =
        { st with dom := panelSwitchInstant (trigUpdate st.dom g t) g [] } := by
      simp only [activateTab, hg, hIdle, hfind, hnext, Bool.false_eq_true, if_false]
    constructor
    · intro i hi
      rw [hred]
      show (domGet (panelSwitchInstant (trigUpdate st.dom g t) g []) i).classContains
          g.activeClass = _ ∧ _
      rw [htrig2 i hi]
      exact htrig i hi
    · intro _ i hi
      rw [hred]
      exact hpanel i hi
  · cases han : g.animate
    · have hred : activateTab st n t =
          { st with dom := panelSwitchInstant (trigUpdate st.dom g t) g [] } := by
        simp only [activateTab, hg, hIdle, hfind, hnext, han, contains_nil_nat,
          Bool.false_eq_true, if_false]
      constructor
      · intro i hi
        rw [hred]
        show (domGet (panelSwitchInstant (trigUpdate st.dom g t) g []) i).classContains
            g.activeClass = _ ∧ _
        rw [htrig2 i hi]
        exact htrig i hi
      · intro _ i hi
        rw [hred]
        exact hpanel i hi
    · have hred : activateTab st n t =
          { st with
            dom := domModify (trigUpdate st.dom g t) cp (exitStart g.activeClass)
            reg := regSetPhase st.reg n (AnimPhase.exitScheduled cp []) } := by
        simp only [activateTab, hg, hIdle, hfind, hnext, han, contains_nil_nat,
          Bool.false_eq_true, if_false, if_true]
      constructor
      · intro i hi
        rw [hred]
        have hicp : ¬ i = cp := fun h => hdisj i hi (h ▸ List.mem_of_find?_eq_some hfind)
        show (domGet (domModify (trigUpdate st.dom g t) cp (exitStart g.activeClass)) i
            ).classContains g.activeClass = _ ∧ _
        rw [domGet_domModify]
        simp only [hicp, false_and, if_false]
        exact htrig i hi
      · intro hcase i hi
        rcases hcase with h | h
        · exact Bool.noConfusion h
        · exact Option.noConfusion h

theorem tabs_C10_witness :
    regFind exSt4.reg "g" = some exG4 ∧ exG4.isAnimating = false ∧
      exG4.panels.filter
        (fun i => (domGet exSt4.dom i).getAttr ATTR_content == some "z") = [] ∧
      ((∀ i ∈ exG4.triggers,
        (domGet (activateTab exSt4 "g" "z").dom i).classContains exG4.activeClass =
          ((domGet exSt4.dom i).getAttr ATTR_trigger == some "z") ∧
        (domGet (activateTab exSt4 "g" "z").dom i).getAttr ariaSelected =
          some (if ((domGet exSt4.dom i).getAttr ATTR_trigger == some "z") = true then "true"
            else "false")) ∧
      ((exG4.animate = false ∨
          exG4.panels.find?
            (fun i => (domGet exSt4.dom i).classContains exG4.activeClass) = none) →
        ∀ i ∈ exG4.panels,
          (domGet (activateTab exSt4 "g" "z").dom i).classContains exG4.activeClass = false ∧
          (domGet (activateTab exSt4 "g" "z").dom i).getAttr ariaHidden = some "true")) :=
  ⟨by decide, by decide, by decide,
    tabs_C10_no_matching_panels exSt4 "g" "z" exG4 (by decide) (by decide) (by decide)
      (by decide) (by decide) (by decide)⟩

theorem tabs_C9_witness :
    regFind exSt4.reg "g" = some exG4 ∧
      exG4.triggers.find? (fun i => (domGet exSt4.dom i).classContains exG4.activeClass) =
        some 0 ∧
      (domGet exSt4.dom 0).getAttr ATTR_trigger = some "a" ∧ ¬ "a" = "" ∧
      getActiveTab exSt4 "g" = some "a" :=
  ⟨by decide, by decide, by decide, by decide,
    ((tabs_C9_amended exSt4 "g").2 exG4 (by decide)).2 0 (by decide) |>.2.2 "a" (by decide)
      (by decide)⟩

/-! ## Claim C1: the settled single-active-tab invariant.

A settled (non-animating) group is described by a tab identifier whose
triggers carry the active class and whose panels carry it, exactly.  The
invariant is maintained by the activation state machine across activation
requests and timer firings, for every group visible in the registry. -/

def triggersSettled (d : Dom) (g : TabsGroup) (tid : String) : Prop :=
  (∃ i ∈ g.triggers, (domGet d i).getAttr ATTR_trigger = some tid) ∧
  ∀ i ∈ g.triggers,
    (domGet d i).classContains g.activeClass =
      ((domGet d i).getAttr ATTR_trigger == some tid)

def panelsSettled (d : Dom) (g : TabsGroup) (tid : String) : Prop :=
  ∀ i ∈ g.panels,
    (domGet d i).classContains g.activeClass =
      ((domGet d i).getAttr ATTR_content == some tid)

def settledActive (d : Dom) (g : TabsGroup) : Prop :=
  ∃ tid, triggersSettled d g tid ∧ panelsSettled d g tid

def groupWF (d : Dom) (n : String) (g : TabsGroup) : Prop :=
  (∀ i ∈ g.triggers, i < d.length) ∧
  (∀ i ∈ g.panels, i < d.length) ∧
  (∀ i ∈ g.triggers, (domGet d i).getAttr ATTR_group = some n) ∧
  (∀ i ∈ g.panels, (domGet d i).getAttr ATTR_group = some n) ∧
  (∀ i ∈ g.triggers, ¬ i ∈ g.panels) ∧
  ¬ g.activeClass = ANIM_CLASS_entering

def phaseInv (d : Dom) (g : TabsGroup) : Prop :=
  match g.phase with
  | AnimPhase.idle => settledActive d g
  | AnimPhase.exitScheduled cp nps =>
      cp ∈ g.panels ∧ nps.contains cp = false ∧
      ∃ tid, triggersSettled d g tid ∧
        nps = g.panels.filter (fun i => (domGet d i).getAttr ATTR_content == some tid)
  | AnimPhase.enterScheduled => settledActive d g

def Inv (st : St) : Prop :=
  ∀ n g, regFind st.reg n = some g → groupWF st.dom n g ∧ phaseInv st.dom g

def validEvent (st : St) : Event → Bool
  | Event.activate n t =>
    match regFind st.reg n with
    | none => true
    | some g => g.triggers.any (fun i => (domGet st.dom i).getAttr ATTR_trigger == some t)
  | Event.fireExitTimer _ => true
  | Event.fireEnterTimer _ => true

def eraseG (g : TabsGroup) : TabsGroup := { g with phase := AnimPhase.idle }

def eraseReg (r : Registry) : Registry := r.map (fun p => (p.1, eraseG p.2))

def RunFrame (st0 st : St) : Prop :=
  st.dom.length = st0.dom.length ∧
  (∀ j, (domGet st.dom j).getAttr ATTR_trigger = (domGet st0.dom j).getAttr ATTR_trigger) ∧
  eraseReg st.reg = eraseReg st0.reg

theorem phase_eq_idle_of_not_animating (g : TabsGroup) (h : g.isAnimating = false) :
    g.phase = AnimPhase.idle := by
  unfold TabsGroup.isAnimating at h
  simpa using h

theorem phaseInv_idle (d : Dom) (g : TabsGroup) (h : g.phase = AnimPhase.idle) :
    phaseInv d g ↔ settledActive d g := by
  unfold phaseInv
  rw [h]

theorem phaseInv_exit (d : Dom) (g : TabsGroup) (cp : Nat) (nps : List Nat)
    (h : g.phase = AnimPhase.exitScheduled cp nps) :
    phaseInv d g ↔
      (cp ∈ g.panels ∧ nps.contains cp = false ∧
        ∃ tid, triggersSettled d g tid ∧
          nps = g.panels.filter (fun i => (domGet d i).getAttr ATTR_content == some tid)) := by
  unfold phaseInv
  rw [h]

theorem phaseInv_enter (d : Dom) (g : TabsGroup) (h : g.phase = AnimPhase.enterScheduled) :
    phaseInv d g ↔ settledActive d g := by
  unfold phaseInv
  rw [h]

theorem triggersSettled_unique (d : Dom) (g : TabsGroup) (tid tid2 : String)
    (h : triggersSettled d g tid) (h2 : triggersSettled d g tid2) : tid2 = tid := by
  obtain ⟨⟨i, hi, hattr⟩, hchar2⟩ := h2
  have hc2 : (domGet d i).classContains g.activeClass = true := by
    rw [hchar2 i hi, hattr]
    simp
  have hc1 := h.2 i hi
  rw [hc2, hattr] at hc1
  have hb : (some tid2 == some tid) = true := hc1.symm
  exact Option.some.inj (eq_of_beq hb)

/-! ### Registry lemmas -/

theorem regFind_cons (p : String × TabsGroup) (r : Registry) (m : String) :
    regFind (p :: r) m = if p.1 == m then some p.2 else regFind r m := by
  unfold regFind
  rw [List.find?_cons]
  cases hb : p.1 == m <;> simp [hb]

theorem regFind_regSetPhase (r : Registry) (n : String) (ph : AnimPhase) (m : String) :
    regFind (regSetPhase r n ph) m =
      if m = n then (regFind r m).map (fun g => { g with phase := ph })
      else regFind r m := by
  induction r with
  | nil =>
    show (none : Option TabsGroup) = if m = n then Option.map _ none else none
    split <;> rfl
  | cons p r ih =>
    have hstep : regSetPhase (p :: r) n ph =
        (if p.1 == n then (p.1, { p.2 with phase := ph }) else p) :: regSetPhase r n ph := rfl
    rw [hstep, regFind_cons p r m]
    by_cases hpn : p.1 = n
    · by_cases hpm : p.1 = m
      · have hmn : m = n := by rw [← hpm, hpn]
        simp [hpn, hpm, hmn, regFind_cons]
      · have hmn : ¬ m = n := fun h => hpm (by rw [hpn, ← h])
        have hnm : ¬ n = m := fun h => hmn h.symm
        simp [hpn, hpm, hmn, hnm, ih, regFind_cons]
    · by_cases hpm : p.1 = m
      · have hmn : ¬ m = n := fun h => hpn (by rw [hpm, h])
        simp [hpn, hpm, hmn, ih, regFind_cons]
      · simp [hpn, hpm, ih, regFind_cons]

theorem eraseReg_regSetPhase (r : Registry) (n : String) (ph : AnimPhase) :
    eraseReg (regSetPhase r n ph) = eraseReg r := by
  induction r with
  | nil => rfl
  | cons p r ih =>
    show ((fun q => ((q : String × TabsGroup).1, eraseG q.2))
        (if p.1 == n then (p.1, { p.2 with phase := ph }) else p)) ::
        eraseReg (regSetPhase r n ph) = (p.1, eraseG p.2) :: eraseReg r
    rw [ih]
    cases hb : p.1 == n <;> simp [hb, eraseG]

theorem regFind_eraseReg (r : Registry) (n : String) :
    regFind (eraseReg r) n = (regFind r n).map eraseG := by
  induction r with
  | nil => rfl
  | cons p r ih =>
    rw [show eraseReg (p :: r) = (p.1, eraseG p.2) :: eraseReg r from rfl,
      regFind_cons, regFind_cons]
    cases hb : p.1 == n <;> simp [hb, ih]

theorem regFind_map_setEntry_ne (r : Registry) (n : String) (g : TabsGroup) (m : String)
    (h : ¬ m = n) :
    regFind (r.map (fun p => if p.1 == n then (n, g) else p)) m = regFind r m := by
  induction r with
  | nil => rfl
  | cons p r ih =>
    rw [List.map_cons, regFind_cons, regFind_cons]
    simp only [beq_iff_eq] at ih
    by_cases hpn : p.1 = n
    · have hnm : ¬ n = m := fun hh => h hh.symm
      simp [hpn, hnm, ih]
    · simp [hpn, ih]

theorem regFind_regSet_ne (r : Registry) (n : String) (g : TabsGroup) (m : String)
    (h : ¬ m = n) : regFind (regSet r n g) m = regFind r m := by
  unfold regSet
  split
  · exact regFind_map_setEntry_ne r n g m h
  · have h2 : (n == m) = false := beq_eq_false_iff_ne.mpr (fun hh => h hh.symm)
    unfold regFind
    rw [List.find?_append]
    cases hf : r.find? (fun p => p.1 == m) <;> simp [hf, List.find?_cons, h2]

/-! ### Congruence of the invariant under pointwise document agreement -/

theorem triggersSettled_of_eq (d d2 : Dom) (g : TabsGroup) (tid : String)
    (h : ∀ i ∈ g.triggers, domGet d2 i = domGet d i) :
    triggersSettled d g tid → triggersSettled d2 g tid := by
  rintro ⟨⟨i, hi, hattr⟩, hchar⟩
  refine ⟨⟨i, hi, ?_⟩, fun j hj => ?_⟩
  · rw [h i hi]
    exact hattr
  · rw [h j hj]
    exact hchar j hj

theorem panelsSettled_of_eq (d d2 : Dom) (g : TabsGroup) (tid : String)
    (h : ∀ i ∈ g.panels, domGet d2 i = domGet d i) :
    panelsSettled d g tid → panelsSettled d2 g tid := by
  intro hp j hj
  rw [h j hj]
  exact hp j hj

theorem settledActive_of_eq (d d2 : Dom) (g : TabsGroup)
    (ht : ∀ i ∈ g.triggers, domGet d2 i = domGet d i)
    (hp : ∀ i ∈ g.panels, domGet d2 i = domGet d i) :
    settledActive d g → settledActive d2 g := by
  rintro ⟨tid, h1, h2⟩
  exact ⟨tid, triggersSettled_of_eq d d2 g tid ht h1, panelsSettled_of_eq d d2 g tid hp h2⟩

theorem phaseInv_of_eq (d d2 : Dom) (g : TabsGroup)
    (ht : ∀ i ∈ g.triggers, domGet d2 i = domGet d i)
    (hp : ∀ i ∈ g.panels, domGet d2 i = domGet d i) :
    phaseInv d g → phaseInv d2 g := by
  rcases hph : g.phase with _ | ⟨cp, nps⟩ | _
  · intro h
    exact (phaseInv_idle d2 g hph).mpr (settledActive_of_eq d d2 g ht hp
      ((phaseInv_idle d g hph).mp h))
  · intro h
    obtain ⟨h1, h2, tid, h3, h4⟩ := (phaseInv_exit d g cp nps hph).mp h
    refine (phaseInv_exit d2 g cp nps hph).mpr ⟨h1, h2, tid,
      triggersSettled_of_eq d d2 g tid ht h3, ?_⟩
    rw [h4]
    exact (List.filter_congr (fun i hi => by rw [hp i hi])).symm
  · intro h
    exact (phaseInv_enter d2 g hph).mpr (settledActive_of_eq d d2 g ht hp
      ((phaseInv_enter d g hph).mp h))

theorem groupWF_of_frame (d d2 : Dom) (n : String) (g : TabsGroup)
    (hlen : d2.length = d.length)
    (hattr : ∀ j, (domGet d2 j).getAttr ATTR_group = (domGet d j).getAttr ATTR_group) :
    groupWF d n g → groupWF d2 n g := by
  rintro ⟨h1, h2, h3, h4, h5, h6⟩
  refine ⟨fun i hi => ?_, fun i hi => ?_, fun i hi => ?_, fun i hi => ?_, h5, h6⟩
  · rw [hlen]
    exact h1 i hi
  · rw [hlen]
    exact h2 i hi
  · rw [hattr i]
    exact h3 i hi
  · rw [hattr i]
    exact h4 i hi

/-! ### Frame facts: the activation passes preserve length and every
attribute other than the two aria attributes they write -/

theorem getAttr_domGet_domModify (d : Dom) (i : Nat) (f : Elem → Elem) (k : String)
    (hf : ∀ e, (f e).getAttr k = e.getAttr k) (j : Nat) :
    (domGet (domModify d i f) j).getAttr k = (domGet d j).getAttr k := by
  rw [domGet_domModify]
  split
  · next h =>
    rw [hf, h.1]
  · rfl

theorem getAttr_trigUpdate_ne (d : Dom) (g : TabsGroup) (t k : String)
    (hk : ¬ k = ariaSelected) (j : Nat) :
    (domGet (trigUpdate d g t) j).getAttr k = (domGet d j).getAttr k := by
  unfold trigUpdate
  rw [getAttr_domGet_domForEach _ _ _ _ (fun e => getAttr_aT_ne g.activeClass k e hk),
    getAttr_domGet_domForEach _ _ _ _ (fun e => getAttr_dT_ne g.activeClass k e hk)]

theorem getAttr_panelSwitchInstant_ne (d : Dom) (g : TabsGroup) (nps : List Nat) (k : String)
    (hk : ¬ k = ariaHidden) (j : Nat) :
    (domGet (panelSwitchInstant d g nps) j).getAttr k = (domGet d j).getAttr k := by
  unfold panelSwitchInstant
  rw [getAttr_domGet_domForEach _ _ _ _ (fun e => getAttr_aP_ne g.activeClass k e hk),
    getAttr_domGet_domForEach _ _ _ _ (fun e => getAttr_dPi_ne g.activeClass k e hk)]

theorem getAttr_exitPhaseDom_ne (d : Dom) (g : TabsGroup) (cp : Nat) (nps : List Nat)
    (k : String) (hk : ¬ k = ariaHidden) (j : Nat) :
    (domGet (exitPhaseDom d g cp nps) j).getAttr k = (domGet d j).getAttr k := by
  unfold exitPhaseDom
  rw [getAttr_domGet_domForEach _ _ _ _ (fun e => getAttr_enterFinish g.activeClass k e),
    getAttr_domGet_domForEach _ _ _ _ (fun e => getAttr_enterPrep_ne k e hk),
    getAttr_domGet_domForEach _ _ _ _ (fun e => getAttr_dP_ne g.activeClass k e hk),
    getAttr_domGet_domModify _ _ _ _ (fun e => getAttr_exitCleanup_ne k e hk)]

theorem getAttr_activateTabInstant_ne (d : Dom) (g : TabsGroup) (t k : String)
    (h1 : ¬ k = ariaSelected) (h2 : ¬ k = ariaHidden) (j : Nat) :
    (domGet (activateTabInstant d g t) j).getAttr k = (domGet d j).getAttr k := by
  unfold activateTabInstant
  rw [getAttr_domGet_domForEach _ _ _ _ (fun e => getAttr_aP_ne g.activeClass k e h2),
    getAttr_domGet_domForEach _ _ _ _ (fun e => getAttr_aT_ne g.activeClass k e h1),
    getAttr_domGet_domForEach _ _ _ _ (fun e => getAttr_dP_ne g.activeClass k e h2),
    getAttr_domGet_domForEach _ _ _ _ (fun e => getAttr_dT_ne g.activeClass k e h1)]

/-! ### Indices outside the touched sets are untouched -/

theorem domGet_trigUpdate_notMem (d : Dom) (g : TabsGroup) (t : String) (j : Nat)
    (hj : ¬ j ∈ g.triggers) : domGet (trigUpdate d g t) j = domGet d j := by
  unfold trigUpdate
  rw [domGet_domForEach_notMem _ _ _ _ (fun hm => hj (List.mem_filter.mp hm).1),
    domGet_domForEach_notMem _ _ _ _ hj]

theorem domGet_panelSwitchInstant_notMem (d : Dom) (g : TabsGroup) (nps : List Nat) (j : Nat)
    (hj : ¬ j ∈ g.panels) (hn : ¬ j ∈ nps) :
    domGet (panelSwitchInstant d g nps) j = domGet d j := by
  unfold panelSwitchInstant
  rw [domGet_domForEach_notMem _ _ _ _ hn, domGet_domForEach_notMem _ _ _ _ hj]

theorem domGet_exitPhaseDom_notMem (d : Dom) (g : TabsGroup) (cp : Nat) (nps : List Nat)
    (j : Nat) (hj : ¬ j ∈ g.panels) (hn : ¬ j ∈ nps) (hcp : ¬ j = cp) :
    domGet (exitPhaseDom d g cp nps) j = domGet d j := by
  unfold exitPhaseDom
  rw [domGet_domForEach_notMem _ _ _ _ hn, domGet_domForEach_notMem _ _ _ _ hn,
    domGet_domForEach_notMem _ _ _ _ (fun hm => hj (List.mem_filter.mp hm).1),
    domGet_domModify]
  simp [hcp]

theorem domGet_activateTabInstant_notMem (d : Dom) (g : TabsGroup) (t : String) (j : Nat)
    (ht : ¬ j ∈ g.triggers) (hp : ¬ j ∈ g.panels) :
    domGet (activateTabInstant d g t) j = domGet d j := by
  unfold activateTabInstant
  rw [domGet_domForEach_notMem _ _ _ _ (fun hm => hp (List.mem_filter.mp hm).1),
    domGet_domForEach_notMem _ _ _ _ (fun hm => ht (List.mem_filter.mp hm).1),
    domGet_domForEach_notMem _ _ _ _ hp, domGet_domForEach_notMem _ _ _ _ ht]

theorem domGet_initRolesDom_notMem (d : Dom) (trs pns : List Nat) (j : Nat)
    (ht : ¬ j ∈ trs) (hp : ¬ j ∈ pns) :
    domGet (initRolesDom d trs pns) j = domGet d j := by
  unfold initRolesDom
  rw [domGet_domForEach_notMem _ _ _ _ hp, domGet_domForEach_notMem _ _ _ _ ht]

/-! ### Branch forms of the event handlers -/

theorem activateTab_form (st : St) (n t : String) (g : TabsGroup)
    (hg : regFind st.reg n = some g) (hIdle : g.isAnimating = false) :
    (activateTab st n t = st) ∨
    (activateTab st n t =
      { st with dom := (panelSwitchInstant (trigUpdate st.dom g t) g
          (g.panels.filter (fun i => (domGet st.dom i).getAttr ATTR_content == some t))) }) ∨
    (∃ cp, g.panels.find? (fun i => (domGet st.dom i).classContains g.activeClass) = some cp ∧
      (g.panels.filter
        (fun i => (domGet st.dom i).getAttr ATTR_content == some t)).contains cp = false ∧
      g.animate = true ∧
      activateTab st n t =
        { st with
            dom := (domModify (trigUpdate st.dom g t) cp (exitStart g.activeClass))
            reg := (regSetPhase st.reg n (AnimPhase.exitScheduled cp
              (g.panels.filter
                (fun i => (domGet st.dom i).getAttr ATTR_content == some t)))) }) := by
  rcases hfind : g.panels.find? (fun i => (domGet st.dom i).classContains g.activeClass)
    with _ | cp
  · refine Or.inr (Or.inl ?_)
    simp only [activateTab, hg, hIdle, hfind, Bool.false_eq_true, if_false]
  · cases hcont : (g.panels.filter
        (fun i => (domGet st.dom i).getAttr ATTR_content == some t)).contains cp
    · cases han : g.animate
      · refine Or.inr (Or.inl ?_)
        simp only [activateTab, hg, hIdle, hfind, hcont, han, Bool.false_eq_true, if_false]
      · refine Or.inr (Or.inr ⟨cp, rfl, hcont, rfl, ?_⟩)
        simp only [activateTab, hg, hIdle, hfind, hcont, han, Bool.false_eq_true, if_false,
          if_true]
    · refine Or.inl ?_
      simp only [activateTab, hg, hIdle, hfind, hcont, Bool.false_eq_true, if_false, if_true]

theorem activateTab_none (st : St) (n t : String) (hg : regFind st.reg n = none) :
    activateTab st n t = { st with log := st.log ++ ["warn: group not found: " ++ n] } := by
  simp only [activateTab, hg]

theorem activateTab_animating (st : St) (n t : String) (g : TabsGroup)
    (hg : regFind st.reg n = some g) (ha : g.isAnimating = true) :
    activateTab st n t = st := by
  simp only [activateTab, hg, ha, if_true]

theorem fireExit_none (st : St) (n : String) (hg : regFind st.reg n = none) :
    fireExit st n = st := by
  simp only [fireExit, hg]

theorem fireExit_exit (st : St) (n : String) (g : TabsGroup) (cp : Nat) (nps : List Nat)
    (hg : regFind st.reg n = some g) (hph : g.phase = AnimPhase.exitScheduled cp nps) :
    fireExit st n =
      { st with dom := (exitPhaseDom st.dom g cp nps)
                reg := (regSetPhase st.reg n AnimPhase.enterScheduled) } := by
  simp only [fireExit, hg, hph]

theorem fireExit_other (st : St) (n : String) (g : TabsGroup)
    (hg : regFind st.reg n = some g)
    (hph : ∀ cp nps, ¬ g.phase = AnimPhase.exitScheduled cp nps) :
    fireExit st n = st := by
  have hred : fireExit st n =
      (match g.phase with
       | AnimPhase.exitScheduled cp nps =>
         { st with dom := (exitPhaseDom st.dom g cp nps)
                   reg := (regSetPhase st.reg n AnimPhase.enterScheduled) }
       | _ => st) := by
    simp only [fireExit, hg]
  rw [hred]
  rcases hp : g.phase with _ | ⟨cp, nps⟩ | _
  all_goals first
    | rfl
    | exact absurd hp (hph cp nps)

theorem fireEnter_none (st : St) (n : String) (hg : regFind st.reg n = none) :
    fireEnter st n = st := by
  simp only [fireEnter, hg]

theorem fireEnter_enter (st : St) (n : String) (g : TabsGroup)
    (hg : regFind st.reg n = some g) (hph : g.phase = AnimPhase.enterScheduled) :
    fireEnter st n = { st with reg := regSetPhase st.reg n AnimPhase.idle } := by
  simp only [fireEnter, hg, hph]

theorem fireEnter_other (st : St) (n : String) (g : TabsGroup)
    (hg : regFind st.reg n = some g) (hph : ¬ g.phase = AnimPhase.enterScheduled) :
    fireEnter st n = st := by
  have hred : fireEnter st n =
      (match g.phase with
       | AnimPhase.enterScheduled => { st with reg := (regSetPhase st.reg n AnimPhase.idle) }
       | _ => st) := by
    simp only [fireEnter, hg]
  rw [hred]
  rcases hp : g.phase with _ | ⟨cp, nps⟩ | _
  all_goals first
    | rfl
    | exact absurd hp hph

/-! ### Preservation of the invariant by an activation request -/

theorem Inv_activateTab (st : St) (n t : String) (hI : Inv st)
    (hv : ∀ g, regFind st.reg n = some g →
      ∃ i ∈ g.triggers, (domGet st.dom i).getAttr ATTR_trigger = some t) :
    Inv (activateTab st n t) := by
  rcases hg : regFind st.reg n with _ | g
  · rw [activateTab_none st n t hg]
    exact fun m gm hm => hI m gm hm
  · cases han : g.isAnimating
    · obtain ⟨hWF, hPh⟩ := hI n g hg
      obtain ⟨hTb, hPb, hTg, hPg, hTP, hAC⟩ := hWF
      obtain ⟨iv, hiv, hivt⟩ := hv g hg
      rcases activateTab_form st n t g hg han with heq | heq | ⟨cp, hfind, hcont, hanim, heq⟩
      · rw [heq]
        exact hI
      · rw [heq]
        set nps := g.panels.filter
          (fun i => (domGet st.dom i).getAttr ATTR_content == some t) with hnps
        set D := panelSwitchInstant (trigUpdate st.dom g t) g nps with hD
        have hlen : D.length = st.dom.length := by
          rw [hD, length_panelSwitchInstant, length_trigUpdate]
        have hattrG : ∀ j,
            (domGet D j).getAttr ATTR_group = (domGet st.dom j).getAttr ATTR_group := by
          intro j
          rw [hD, getAttr_panelSwitchInstant_ne _ _ _ ATTR_group (by decide) j,
            getAttr_trigUpdate_ne _ _ _ ATTR_group (by decide) j]
        have hattrT : ∀ j,
            (domGet D j).getAttr ATTR_trigger = (domGet st.dom j).getAttr ATTR_trigger := by
          intro j
          rw [hD, getAttr_panelSwitchInstant_ne _ _ _ ATTR_trigger (by decide) j,
            getAttr_trigUpdate_ne _ _ _ ATTR_trigger (by decide) j]
        have hnsub : ∀ i, i ∈ nps → i ∈ g.panels := by
          intro i hi
          rw [hnps] at hi
          exact (List.mem_filter.mp hi).1
        intro m gm hm
        have hm2 : regFind st.reg m = some gm := hm
        show groupWF D m gm ∧ phaseInv D gm
        by_cases hmn : m = n
        · subst hmn
          have hgm : g = gm := by
            rw [hg] at hm2
            exact Option.some.inj hm2
          subst hgm
          constructor
          · exact groupWF_of_frame st.dom D m g hlen hattrG ⟨hTb, hPb, hTg, hPg, hTP, hAC⟩
          · have hidle : g.phase = AnimPhase.idle := phase_eq_idle_of_not_animating g han
            refine (phaseInv_idle D g hidle).mpr ⟨t, ⟨⟨iv, hiv, ?_⟩, ?_⟩, ?_⟩
            · rw [hattrT iv]
              exact hivt
            · intro i hi
              have hiP : ¬ i ∈ g.panels := hTP i hi
              have hiN : ¬ i ∈ nps := fun hmem => hiP (hnsub i hmem)
              have h1 : domGet D i = domGet (trigUpdate st.dom g t) i := by
                rw [hD]
                exact domGet_panelSwitchInstant_notMem _ _ _ _ hiP hiN
              rw [h1, domGet_trigUpdate st.dom g t i (hTb i hi)]
              cases hc : (domGet st.dom i).getAttr ATTR_trigger == some t <;>
                simp [hi, hc, aT, dT, show ¬ ATTR_trigger = ariaSelected from by decide]
            · intro i hi
              have hiT : ¬ i ∈ g.triggers := fun hmem => hTP i hmem hi
              have h0 : domGet (trigUpdate st.dom g t) i = domGet st.dom i :=
                domGet_trigUpdate_notMem _ _ _ _ hiT
              have hlb : i < (trigUpdate st.dom g t).length := by
                rw [length_trigUpdate]
                exact hPb i hi
              rw [hD, domGet_panelSwitchInstant _ _ _ _ hlb, h0]
              cases hc : (domGet st.dom i).getAttr ATTR_content == some t
              · have hin : ¬ i ∈ nps := by
                  rw [hnps]
                  intro hmem
                  rw [List.mem_filter] at hmem
                  rw [hmem.2] at hc
                  exact Bool.noConfusion hc
                simp [hin, hi, hc, dPi, show ¬ ATTR_content = ariaHidden from by decide]
              · have hin : i ∈ nps := by
                  rw [hnps]
                  exact List.mem_filter.mpr ⟨hi, hc⟩
                simp [hin, hi, hc, aP, dPi, show ¬ ATTR_content = ariaHidden from by decide]
        · obtain ⟨hWFm, hPhm⟩ := hI m gm hm2
          obtain ⟨hTbm, hPbm, hTgm, hPgm, hTPm, hACm⟩ := hWFm
          have huntouched : ∀ i, (domGet st.dom i).getAttr ATTR_group = some m →
              domGet D i = domGet st.dom i := by
            intro i hgi
            have hiT : ¬ i ∈ g.triggers := by
              intro hmem
              have h2 := (hTg i hmem).symm.trans hgi
              exact hmn (Option.some.inj h2).symm
            have hiP : ¬ i ∈ g.panels := by
              intro hmem
              have h2 := (hPg i hmem).symm.trans hgi
              exact hmn (Option.some.inj h2).symm
            have hiN : ¬ i ∈ nps := fun hmem => hiP (hnsub i hmem)
            rw [hD, domGet_panelSwitchInstant_notMem _ _ _ _ hiP hiN,
              domGet_trigUpdate_notMem _ _ _ _ hiT]
          constructor
          · exact groupWF_of_frame st.dom D m gm hlen hattrG
              ⟨hTbm, hPbm, hTgm, hPgm, hTPm, hACm⟩
          · exact phaseInv_of_eq st.dom D gm (fun i hi => huntouched i (hTgm i hi))
              (fun i hi => huntouched i (hPgm i hi)) hPhm
      · rw [heq]
        set nps := g.panels.filter
          (fun i => (domGet st.dom i).getAttr ATTR_content == some t) with hnps
        set D := domModify (trigUpdate st.dom g t) cp (exitStart g.activeClass) with hD
        have hcpP : cp ∈ g.panels := List.mem_of_find?_eq_some hfind
        have hlen : D.length = st.dom.length := by
          rw [hD, length_domModify, length_trigUpdate]
        have hattrG : ∀ j,
            (domGet D j).getAttr ATTR_group = (domGet st.dom j).getAttr ATTR_group := by
          intro j
          rw [hD, getAttr_domGet_domModify _ _ _ ATTR_group
            (fun e => getAttr_exitStart g.activeClass ATTR_group e) j,
            getAttr_trigUpdate_ne _ _ _ ATTR_group (by decide) j]
        have hattrT : ∀ j,
            (domGet D j).getAttr ATTR_trigger = (domGet st.dom j).getAttr ATTR_trigger := by
          intro j
          rw [hD, getAttr_domGet_domModify _ _ _ ATTR_trigger
            (fun e => getAttr_exitStart g.activeClass ATTR_trigger e) j,
            getAttr_trigUpdate_ne _ _ _ ATTR_trigger (by decide) j]
        have hattrC : ∀ j,
            (domGet D j).getAttr ATTR_content = (domGet st.dom j).getAttr ATTR_content := by
          intro j
          rw [hD, getAttr_domGet_domModify _ _ _ ATTR_content
            (fun e => getAttr_exitStart g.activeClass ATTR_content e) j,
            getAttr_trigUpdate_ne _ _ _ ATTR_content (by decide) j]
        intro m gm hm
        have hm2 : regFind (regSetPhase st.reg n (AnimPhase.exitScheduled cp nps)) m
            = some gm := hm
        show groupWF D m gm ∧ phaseInv D gm
        rw [regFind_regSetPhase] at hm2
        by_cases hmn : m = n
        · subst hmn
          rw [if_pos rfl, hg] at hm2
          have hgm : gm = { g with phase := AnimPhase.exitScheduled cp nps } :=
            (Option.some.inj hm2).symm
          subst hgm
          constructor
          · exact groupWF_of_frame st.dom D m g hlen hattrG ⟨hTb, hPb, hTg, hPg, hTP, hAC⟩
          · refine (phaseInv_exit D _ cp nps rfl).mpr ⟨hcpP, hcont, t, ⟨⟨iv, hiv, ?_⟩, ?_⟩, ?_⟩
            · rw [hattrT iv]
              exact hivt
            · intro i hi
              have hi2 : i ∈ g.triggers := hi
              have hiP : ¬ i ∈ g.panels := hTP i hi2
              have hicp : ¬ i = cp := fun h => hiP (h ▸ hcpP)
              have h1 : domGet D i = domGet (trigUpdate st.dom g t) i := by
                rw [hD, domGet_domModify, if_neg (fun hh => hicp hh.1)]
              show (domGet D i).classContains g.activeClass = _
              rw [h1, domGet_trigUpdate st.dom g t i (hTb i hi2)]
              cases hc : (domGet st.dom i).getAttr ATTR_trigger == some t <;>
                simp [hi2, hc, aT, dT, show ¬ ATTR_trigger = ariaSelected from by decide]
            · rw [hnps]
              exact List.filter_congr (fun i hi => by rw [hattrC i])
        · rw [if_neg hmn] at hm2
          obtain ⟨hWFm, hPhm⟩ := hI m gm hm2
          obtain ⟨hTbm, hPbm, hTgm, hPgm, hTPm, hACm⟩ := hWFm
          have huntouched : ∀ i, (domGet st.dom i).getAttr ATTR_group = some m →
              domGet D i = domGet st.dom i := by
            intro i hgi
            have hiT : ¬ i ∈ g.triggers := by
              intro hmem
              have h2 := (hTg i hmem).symm.trans hgi
              exact hmn (Option.some.inj h2).symm
            have hicp : ¬ i = cp := by
              intro h
              have h2 := (hPg cp hcpP).symm.trans (h ▸ hgi)
              exact hmn (Option.some.inj h2).symm
            rw [hD, domGet_domModify, if_neg (fun hh => hicp hh.1),
              domGet_trigUpdate_notMem _ _ _ _ hiT]
          constructor
          · exact groupWF_of_frame st.dom D m gm hlen hattrG
              ⟨hTbm, hPbm, hTgm, hPgm, hTPm, hACm⟩
          · exact phaseInv_of_eq st.dom D gm (fun i hi => huntouched i (hTgm i hi))
              (fun i hi => huntouched i (hPgm i hi)) hPhm
    · rw [activateTab_animating st n t g hg han]
      exact hI

/-! ### Preservation of the invariant by the transition timers -/

theorem Inv_fireExit (st : St) (n : String) (hI : Inv st) : Inv (fireExit st n) := by
  rcases hg : regFind st.reg n with _ | g
  · rw [fireExit_none st n hg]
    exact hI
  · rcases hph : g.phase with _ | ⟨cp, nps⟩ | _
    · rw [fireExit_other st n g hg
        (by intro cp nps h; rw [hph] at h; exact AnimPhase.noConfusion h)]
      exact hI
    · obtain ⟨hWF, hPh⟩ := hI n g hg
      obtain ⟨hTb, hPb, hTg, hPg, hTP, hAC⟩ := hWF
      obtain ⟨hcpP, hcont, tid, hTS, hnpseq⟩ := (phaseInv_exit st.dom g cp nps hph).mp hPh
      rw [fireExit_exit st n g cp nps hg hph]
      set D := exitPhaseDom st.dom g cp nps with hD
      have hcpb : cp < st.dom.length := hPb cp hcpP
      have hlen : D.length = st.dom.length := by
        rw [hD, length_exitPhaseDom]
      have hattrG : ∀ j,
          (domGet D j).getAttr ATTR_group = (domGet st.dom j).getAttr ATTR_group := by
        intro j
        rw [hD]
        exact getAttr_exitPhaseDom_ne st.dom g cp nps ATTR_group (by decide) j
      have hattrC : ∀ j,
          (domGet D j).getAttr ATTR_content = (domGet st.dom j).getAttr ATTR_content := by
        intro j
        rw [hD]
        exact getAttr_exitPhaseDom_ne st.dom g cp nps ATTR_content (by decide) j
      have hnsub : ∀ i, i ∈ nps → i ∈ g.panels := by
        intro i hi
        rw [hnpseq] at hi
        exact (List.mem_filter.mp hi).1
      have hcpn : ¬ cp ∈ nps := by
        intro hmem
        have h4 : List.elem cp nps = true := List.elem_iff.mpr hmem
        have h5 : List.elem cp nps = false := hcont
        rw [h4] at h5
        exact Bool.noConfusion h5
      have hbne : (g.activeClass != ANIM_CLASS_entering) = true := bne_iff_ne.mpr hAC
      intro m gm hm
      have hm2 : regFind (regSetPhase st.reg n AnimPhase.enterScheduled) m = some gm := hm
      show groupWF D m gm ∧ phaseInv D gm
      rw [regFind_regSetPhase] at hm2
      by_cases hmn : m = n
      · subst hmn
        rw [if_pos rfl, hg] at hm2
        have hgm : gm = { g with phase := AnimPhase.enterScheduled } :=
          (Option.some.inj hm2).symm
        subst hgm
        constructor
        · exact groupWF_of_frame st.dom D m g hlen hattrG ⟨hTb, hPb, hTg, hPg, hTP, hAC⟩
        · refine (phaseInv_enter D _ rfl).mpr ⟨tid, ?_, ?_⟩
          · refine triggersSettled_of_eq st.dom D g tid ?_ hTS
            intro i hi
            have hiP : ¬ i ∈ g.panels := hTP i hi
            have hiN : ¬ i ∈ nps := fun hmem => hiP (hnsub i hmem)
            have hicp : ¬ i = cp := fun h => hiP (h ▸ hcpP)
            rw [hD]
            exact domGet_exitPhaseDom_notMem st.dom g cp nps i hiP hiN hicp
          · intro i hi
            have hi2 : i ∈ g.panels := hi
            have hib : i < st.dom.length := hPb i hi2
            show (domGet D i).classContains g.activeClass =
              ((domGet D i).getAttr ATTR_content == some tid)
            rw [hattrC i, hD, domGet_exitPhaseDom st.dom g cp nps i hib hcpb]
            by_cases hin : i ∈ nps
            · have hc : ((domGet st.dom i).getAttr ATTR_content == some tid) = true := by
                rw [hnpseq] at hin
                exact (List.mem_filter.mp hin).2
              have hicp : ¬ i = cp := fun h => hcpn (h ▸ hin)
              rw [hc]
              simp [hin, hi2, hicp, enterFinish, enterPrep, hbne]
            · have hc : ((domGet st.dom i).getAttr ATTR_content == some tid) = false := by
                cases hcb : (domGet st.dom i).getAttr ATTR_content == some tid
                · rfl
                · exact absurd (by rw [hnpseq]; exact List.mem_filter.mpr ⟨hi2, hcb⟩) hin
              rw [hc]
              by_cases hicp : i = cp
              · subst hicp
                simp [hcpn, hi2, dP, exitCleanup]
              · simp [hin, hi2, hicp, dP]
      · rw [if_neg hmn] at hm2
        obtain ⟨hWFm, hPhm⟩ := hI m gm hm2
        obtain ⟨hTbm, hPbm, hTgm, hPgm, hTPm, hACm⟩ := hWFm
        have huntouched : ∀ i, (domGet st.dom i).getAttr ATTR_group = some m →
            domGet D i = domGet st.dom i := by
          intro i hgi
          have hiP : ¬ i ∈ g.panels := by
            intro hmem
            have h2 := (hPg i hmem).symm.trans hgi
            exact hmn (Option.some.inj h2).symm
          have hiN : ¬ i ∈ nps := fun hmem => hiP (hnsub i hmem)
          have hicp : ¬ i = cp := fun h => hiP (h ▸ hcpP)
          rw [hD]
          exact domGet_exitPhaseDom_notMem st.dom g cp nps i hiP hiN hicp
        constructor
        · exact groupWF_of_frame st.dom D m gm hlen hattrG
            ⟨hTbm, hPbm, hTgm, hPgm, hTPm, hACm⟩
        · exact phaseInv_of_eq st.dom D gm (fun i hi => huntouched i (hTgm i hi))
            (fun i hi => huntouched i (hPgm i hi)) hPhm
    · rw [fireExit_other st n g hg
        (by intro cp nps h; rw [hph] at h; exact AnimPhase.noConfusion h)]
      exact hI

theorem Inv_fireEnter (st : St) (n : String) (hI : Inv st) : Inv (fireEnter st n) := by
  rcases hg : regFind st.reg n with _ | g
  · rw [fireEnter_none st n hg]
    exact hI
  · by_cases hph : g.phase = AnimPhase.enterScheduled
    · obtain ⟨hWF, hPh⟩ := hI n g hg
      have hset := (phaseInv_enter st.dom g hph).mp hPh
      rw [fireEnter_enter st n g hg hph]
      intro m gm hm
      have hm2 : regFind (regSetPhase st.reg n AnimPhase.idle) m = some gm := hm
      show groupWF st.dom m gm ∧ phaseInv st.dom gm
      rw [regFind_regSetPhase] at hm2
      by_cases hmn : m = n
      · subst hmn
        rw [if_pos rfl, hg] at hm2
        have hgm : gm = { g with phase := AnimPhase.idle } := (Option.some.inj hm2).symm
        subst hgm
        obtain ⟨hTb, hPb, hTg, hPg, hTP, hAC⟩ := hWF
        exact ⟨⟨hTb, hPb, hTg, hPg, hTP, hAC⟩, (phaseInv_idle st.dom _ rfl).mpr hset⟩
      · rw [if_neg hmn] at hm2
        exact hI m gm hm2
    · rw [fireEnter_other st n g hg hph]
      exact hI

/-! ### Frame facts for whole events, and preservation along a run -/

theorem frame_activateTab (st : St) (n t : String) :
    (activateTab st n t).dom.length = st.dom.length ∧
    (∀ k, ¬ k = ariaSelected → ¬ k = ariaHidden → ∀ j,
      (domGet (activateTab st n t).dom j).getAttr k = (domGet st.dom j).getAttr k) ∧
    eraseReg (activateTab st n t).reg = eraseReg st.reg := by
  rcases hg : regFind st.reg n with _ | g
  · rw [activateTab_none st n t hg]
    exact ⟨rfl, fun k h1 h2 j => rfl, rfl⟩
  · cases han : g.isAnimating
    · rcases activateTab_form st n t g hg han with heq | heq | ⟨cp, hfind, hcont, hanim, heq⟩
      · rw [heq]
        exact ⟨rfl, fun k h1 h2 j => rfl, rfl⟩
      · rw [heq]
        refine ⟨?_, fun k h1 h2 j => ?_, rfl⟩
        · show (panelSwitchInstant (trigUpdate st.dom g t) g _).length = st.dom.length
          rw [length_panelSwitchInstant, length_trigUpdate]
        · show (domGet (panelSwitchInstant (trigUpdate st.dom g t) g _) j).getAttr k = _
          rw [getAttr_panelSwitchInstant_ne _ _ _ k h2 j, getAttr_trigUpdate_ne _ _ _ k h1 j]
      · rw [heq]
        refine ⟨?_, fun k h1 h2 j => ?_, ?_⟩
        · show (domModify (trigUpdate st.dom g t) cp (exitStart g.activeClass)).length
            = st.dom.length
          rw [length_domModify, length_trigUpdate]
        · show (domGet (domModify (trigUpdate st.dom g t) cp (exitStart g.activeClass)) j
            ).getAttr k = _
          rw [getAttr_domGet_domModify _ _ _ k
            (fun e => getAttr_exitStart g.activeClass k e) j,
            getAttr_trigUpdate_ne _ _ _ k h1 j]
        · show eraseReg (regSetPhase st.reg n _) = eraseReg st.reg
          exact eraseReg_regSetPhase _ _ _
    · rw [activateTab_animating st n t g hg han]
      exact ⟨rfl, fun k h1 h2 j => rfl, rfl⟩

theorem frame_fireExit (st : St) (n : String) :
    (fireExit st n).dom.length = st.dom.length ∧
    (∀ k, ¬ k = ariaSelected → ¬ k = ariaHidden → ∀ j,
      (domGet (fireExit st n).dom j).getAttr k = (domGet st.dom j).getAttr k) ∧
    eraseReg (fireExit st n).reg = eraseReg st.reg := by
  rcases hg : regFind st.reg n with _ | g
  · rw [fireExit_none st n hg]
    exact ⟨rfl, fun k h1 h2 j => rfl, rfl⟩
  · rcases hph : g.phase with _ | ⟨cp, nps⟩ | _
    · rw [fireExit_other st n g hg
        (by intro cp nps h; rw [hph] at h; exact AnimPhase.noConfusion h)]
      exact ⟨rfl, fun k h1 h2 j => rfl, rfl⟩
    · rw [fireExit_exit st n g cp nps hg hph]
      refine ⟨?_, fun k h1 h2 j => ?_, ?_⟩
      · show (exitPhaseDom st.dom g cp nps).length = st.dom.length
        rw [length_exitPhaseDom]
      · show (domGet (exitPhaseDom st.dom g cp nps) j).getAttr k = _
        exact getAttr_exitPhaseDom_ne st.dom g cp nps k h2 j
      · show eraseReg (regSetPhase st.reg n _) = eraseReg st.reg
        exact eraseReg_regSetPhase _ _ _
    · rw [fireExit_other st n g hg
        (by intro cp nps h; rw [hph] at h; exact AnimPhase.noConfusion h)]
      exact ⟨rfl, fun k h1 h2 j => rfl, rfl⟩

theorem frame_fireEnter (st : St) (n : String) :
    (fireEnter st n).dom.length = st.dom.length ∧
    (∀ k, ¬ k = ariaSelected → ¬ k = ariaHidden → ∀ j,
      (domGet (fireEnter st n).dom j).getAttr k = (domGet st.dom j).getAttr k) ∧
    eraseReg (fireEnter st n).reg = eraseReg st.reg := by
  rcases hg : regFind st.reg n with _ | g
  · rw [fireEnter_none st n hg]
    exact ⟨rfl, fun k h1 h2 j => rfl, rfl⟩
  · by_cases hph : g.phase = AnimPhase.enterScheduled
    · rw [fireEnter_enter st n g hg hph]
      exact ⟨rfl, fun k h1 h2 j => rfl, eraseReg_regSetPhase _ _ _⟩
    · rw [fireEnter_other st n g hg hph]
      exact ⟨rfl, fun k h1 h2 j => rfl, rfl⟩

theorem frame_step (st : St) (ev : Event) :
    (step st ev).dom.length = st.dom.length ∧
    (∀ k, ¬ k = ariaSelected → ¬ k = ariaHidden → ∀ j,
      (domGet (step st ev).dom j).getAttr k = (domGet st.dom j).getAttr k) ∧
    eraseReg (step st ev).reg = eraseReg st.reg := by
  cases ev with
  | activate n t => exact frame_activateTab st n t
  | fireExitTimer n => exact frame_fireExit st n
  | fireEnterTimer n => exact frame_fireEnter st n

theorem step_preserve (st0 st : St) (ev : Event) (hF : RunFrame st0 st) (hI : Inv st)
    (hv : validEvent st0 ev = true) : RunFrame st0 (step st ev) ∧ Inv (step st ev) := by
  obtain ⟨hlen, htrig, hreg⟩ := hF
  obtain ⟨hflen, hfattr, hfreg⟩ := frame_step st ev
  constructor
  · exact ⟨hflen.trans hlen,
      fun j => (hfattr ATTR_trigger (by decide) (by decide) j).trans (htrig j),
      hfreg.trans hreg⟩
  · cases ev with
    | activate n t =>
      refine Inv_activateTab st n t hI ?_
      intro g hg
      have h1 : (regFind st.reg n).map eraseG = (regFind st0.reg n).map eraseG := by
        rw [← regFind_eraseReg, ← regFind_eraseReg, hreg]
      rcases hg0 : regFind st0.reg n with _ | g0
      · rw [hg0, hg] at h1
        exact absurd h1 (by simp)
      · rw [hg0, hg] at h1
        have h1b : eraseG g = eraseG g0 := by
          simp only [Option.map_some'] at h1
          exact Option.some.inj h1
        have htr : g.triggers = g0.triggers := by
          have h2 := congrArg TabsGroup.triggers h1b
          simpa [eraseG] using h2
        have hv2 : g0.triggers.any
            (fun i => (domGet st0.dom i).getAttr ATTR_trigger == some t) = true := by
          simpa [validEvent, hg0] using hv
        obtain ⟨i, hi, hb⟩ := List.any_eq_true.mp hv2
        refine ⟨i, ?_, ?_⟩
        · rw [htr]
          exact hi
        · rw [htrig i]
          exact eq_of_beq hb
    | fireExitTimer n => exact Inv_fireExit st n hI
    | fireEnterTimer n => exact Inv_fireEnter st n hI

theorem run_preserve (st0 : St) (evs : List Event) (hI : Inv st0)
    (hval : ∀ ev ∈ evs, validEvent st0 ev = true) :
    RunFrame st0 (run st0 evs) ∧ Inv (run st0 evs) := by
  have H : ∀ (l : List Event) (st : St), RunFrame st0 st → Inv st →
      (∀ ev ∈ l, validEvent st0 ev = true) →
      RunFrame st0 (l.foldl step st) ∧ Inv (l.foldl step st) := by
    intro l
    induction l with
    | nil =>
      intro st hF hI2 _
      exact ⟨hF, hI2⟩
    | cons ev l ih =>
      intro st hF hI2 hv
      have h1 := step_preserve st0 st ev hF hI2 (hv ev (List.mem_cons_self ev l))
      exact ih (step st ev) h1.1 h1.2 (fun e he => hv e (List.mem_cons_of_mem _ he))
  exact H evs st0 ⟨rfl, fun j => rfl, rfl⟩ hI hval

/-! ### Establishing the invariant at initialization -/

def domHyps (d : Dom) : Prop :=
  (∀ i, i < d.length → ¬ ((domGet d i).hasAttr ATTR_trigger = true ∧
      (domGet d i).hasAttr ATTR_content = true)) ∧
  (∀ i, i < d.length → ¬ (domGet d i).getAttr ATTR_trigger = some "") ∧
  (∀ i, i < d.length → ¬ (domGet d i).getAttr ATTR_activeClass = some ANIM_CLASS_entering)

def InitFrame (st0 st : St) : Prop :=
  st.dom.length = st0.dom.length ∧
  ∀ k, ¬ k = "tabindex" → ¬ k = "role" → ¬ k = ariaSelected → ¬ k = ariaHidden →
    ∀ j, (domGet st.dom j).getAttr k = (domGet st0.dom j).getAttr k

theorem deriveActiveClass_ne_entering (e : Elem)
    (h : ¬ e.getAttr ATTR_activeClass = some ANIM_CLASS_entering) :
    ¬ deriveActiveClass e = ANIM_CLASS_entering := by
  unfold deriveActiveClass
  rcases ha : e.getAttr ATTR_activeClass with _ | s
  · intro hc
    exact absurd hc (by decide)
  · by_cases hs : s = ""
    · subst hs
      intro hc
      exact absurd hc (by decide)
    · intro hc
      have hc2 : (if (s == "") = true then DEFAULT_ACTIVE_CLASS else s)
          = ANIM_CLASS_entering := hc
      rw [if_neg (by simpa using hs)] at hc2
      exact h (by rw [ha, hc2])

theorem headD_mem (l : List Nat) (h : ¬ l = []) : l.headD 0 ∈ l := by
  cases l with
  | nil => exact absurd rfl h
  | cons a t => exact List.mem_cons_self a t

theorem defaultTabIdOf_some (d : Dom) (trs : List Nat) (htne : ¬ trs = [])
    (hall : ∀ i ∈ trs, (domGet d i).hasAttr ATTR_trigger = true) :
    ∃ tid, defaultTabIdOf d trs = some tid := by
  unfold defaultTabIdOf
  rcases hf : trs.find? (fun i => (domGet d i).hasAttr ATTR_defaultMark) with _ | i
  · cases trs with
    | nil => exact absurd rfl htne
    | cons a l =>
      have ha := hall a (List.mem_cons_self a l)
      unfold Elem.hasAttr at ha
      rcases hga : (domGet d a).getAttr ATTR_trigger with _ | s
      · rw [hga] at ha
        exact Bool.noConfusion ha
      · refine ⟨s, ?_⟩
        show (match (a :: l).head? with
          | some i => (domGet d i).getAttr ATTR_trigger
          | none => none) = some s
        rw [List.head?_cons]
        exact hga
  · have hi := List.mem_of_find?_eq_some hf
    have ha := hall i hi
    unfold Elem.hasAttr at ha
    rcases hga : (domGet d i).getAttr ATTR_trigger with _ | s
    · rw [hga] at ha
      exact Bool.noConfusion ha
    · exact ⟨s, hga⟩

theorem initTabsGroup_noTrig (st : St) (n : String) (h : queryTriggers st.dom n = []) :
    initTabsGroup st n = { st with log := st.log ++ ["warn: no triggers: " ++ n] } := by
  unfold initTabsGroup
  rw [if_pos (by simpa using h)]

theorem initTabsGroup_noPanel (st : St) (n : String) (htne : ¬ queryTriggers st.dom n = [])
    (h : queryPanels st.dom n = []) :
    initTabsGroup st n = { st with log := st.log ++ ["warn: no panels: " ++ n] } := by
  unfold initTabsGroup
  rw [if_neg (by simpa using htne), if_pos (by simpa using h)]

theorem initTabsGroup_noDefault (st : St) (n : String)
    (htne : ¬ queryTriggers st.dom n = []) (hpne : ¬ queryPanels st.dom n = [])
    (hd : defaultTabIdOf (initRolesDom st.dom (queryTriggers st.dom n) (queryPanels st.dom n))
      (queryTriggers st.dom n) = none) :
    initTabsGroup st n =
      { st with
        dom := (initRolesDom st.dom (queryTriggers st.dom n) (queryPanels st.dom n))
        reg := (regSet st.reg n
          (initGroupRecord st.dom n (queryTriggers st.dom n) (queryPanels st.dom n))) } := by
  unfold initTabsGroup
  rw [if_neg (by simpa using htne), if_neg (by simpa using hpne)]
  simp only [hd]

theorem initTabsGroup_emptyDefault (st : St) (n : String)
    (htne : ¬ queryTriggers st.dom n = []) (hpne : ¬ queryPanels st.dom n = [])
    (hd : defaultTabIdOf (initRolesDom st.dom (queryTriggers st.dom n) (queryPanels st.dom n))
      (queryTriggers st.dom n) = some "") :
    initTabsGroup st n =
      { st with
        dom := (initRolesDom st.dom (queryTriggers st.dom n) (queryPanels st.dom n))
        reg := (regSet st.reg n
          (initGroupRecord st.dom n (queryTriggers st.dom n) (queryPanels st.dom n))) } := by
  unfold initTabsGroup
  rw [if_neg (by simpa using htne), if_neg (by simpa using hpne)]
  simp only [hd]
  rw [if_pos (by decide)]

theorem frame_initTabsGroup (st : St) (n : String) :
    (initTabsGroup st n).dom.length = st.dom.length ∧
    ∀ k, ¬ k = "tabindex" → ¬ k = "role" → ¬ k = ariaSelected → ¬ k = ariaHidden →
      ∀ j, (domGet (initTabsGroup st n).dom j).getAttr k = (domGet st.dom j).getAttr k := by
  by_cases h1 : queryTriggers st.dom n = []
  · rw [initTabsGroup_noTrig st n h1]
    exact ⟨rfl, fun k hk1 hk2 hk3 hk4 j => rfl⟩
  · by_cases h2 : queryPanels st.dom n = []
    · rw [initTabsGroup_noPanel st n h1 h2]
      exact ⟨rfl, fun k hk1 hk2 hk3 hk4 j => rfl⟩
    · rcases hd : defaultTabIdOf
          (initRolesDom st.dom (queryTriggers st.dom n) (queryPanels st.dom n))
          (queryTriggers st.dom n) with _ | tid
      · rw [initTabsGroup_noDefault st n h1 h2 hd]
        refine ⟨by simp, fun k hk1 hk2 hk3 hk4 j => ?_⟩
        show (domGet (initRolesDom st.dom _ _) j).getAttr k = _
        exact getAttr_initRolesDom st.dom _ _ k j hk1 hk2
      · by_cases htid : tid = ""
        · subst htid
          rw [initTabsGroup_emptyDefault st n h1 h2 hd]
          refine ⟨by simp, fun k hk1 hk2 hk3 hk4 j => ?_⟩
          show (domGet (initRolesDom st.dom _ _) j).getAttr k = _
          exact getAttr_initRolesDom st.dom _ _ k j hk1 hk2
        · have hd0 : defaultTabIdOf st.dom (queryTriggers st.dom n) = some tid := by
            rw [← defaultTabIdOf_congr st.dom
              (initRolesDom st.dom (queryTriggers st.dom n) (queryPanels st.dom n))
              (queryTriggers st.dom n)
              (fun i => hasAttr_initRolesDom _ _ _ _ i (by decide) (by decide))
              (fun i => getAttr_initRolesDom _ _ _ _ i (by decide) (by decide))]
            exact hd
          rw [initTabsGroup_success_form st n tid h1 h2 hd0 htid]
          refine ⟨by simp, fun k hk1 hk2 hk3 hk4 j => ?_⟩
          show (domGet (activateTabInstant
            (initRolesDom st.dom (queryTriggers st.dom n) (queryPanels st.dom n))
            (initGroupRecord st.dom n (queryTriggers st.dom n) (queryPanels st.dom n)) tid) j
              ).getAttr k = _
          rw [getAttr_activateTabInstant_ne _ _ _ k hk3 hk4 j,
            getAttr_initRolesDom st.dom _ _ k j hk1 hk2]

theorem Inv_initTabsGroup (st0 st : St) (n : String)
    (hDH : domHyps st0.dom) (hfr : InitFrame st0 st) (hI : Inv st) :
    Inv (initTabsGroup st n) ∧
    (∀ m gm, regFind (initTabsGroup st n).reg m = some gm →
      m = n ∨ regFind st.reg m = some gm) := by
  obtain ⟨hdual0, hne0, hac0⟩ := hDH
  obtain ⟨hflen, hfattr⟩ := hfr
  have hTfr : ∀ j, (domGet st.dom j).getAttr ATTR_trigger
      = (domGet st0.dom j).getAttr ATTR_trigger :=
    fun j => hfattr ATTR_trigger (by decide) (by decide) (by decide) (by decide) j
  have hCfr : ∀ j, (domGet st.dom j).getAttr ATTR_content
      = (domGet st0.dom j).getAttr ATTR_content :=
    fun j => hfattr ATTR_content (by decide) (by decide) (by decide) (by decide) j
  have hAfr : ∀ j, (domGet st.dom j).getAttr ATTR_activeClass
      = (domGet st0.dom j).getAttr ATTR_activeClass :=
    fun j => hfattr ATTR_activeClass (by decide) (by decide) (by decide) (by decide) j
  have hdual : ∀ i, i < st.dom.length → ¬ ((domGet st.dom i).hasAttr ATTR_trigger = true ∧
      (domGet st.dom i).hasAttr ATTR_content = true) := by
    intro i hb hcc
    have hb0 : i < st0.dom.length := by rw [← hflen]; exact hb
    refine hdual0 i hb0 ⟨?_, ?_⟩
    · show ((domGet st0.dom i).getAttr ATTR_trigger).isSome = true
      rw [← hTfr i]
      exact hcc.1
    · show ((domGet st0.dom i).getAttr ATTR_content).isSome = true
      rw [← hCfr i]
      exact hcc.2
  have hne : ∀ i, i < st.dom.length →
      ¬ (domGet st.dom i).getAttr ATTR_trigger = some "" := by
    intro i hb hcc
    have hb0 : i < st0.dom.length := by rw [← hflen]; exact hb
    exact hne0 i hb0 (by rw [← hTfr i]; exact hcc)
  have hac : ∀ i, i < st.dom.length →
      ¬ (domGet st.dom i).getAttr ATTR_activeClass = some ANIM_CLASS_entering := by
    intro i hb hcc
    have hb0 : i < st0.dom.length := by rw [← hflen]; exact hb
    exact hac0 i hb0 (by rw [← hAfr i]; exact hcc)
  by_cases h1 : queryTriggers st.dom n = []
  · rw [initTabsGroup_noTrig st n h1]
    exact ⟨fun m gm hm => hI m gm hm, fun m gm hm => Or.inr hm⟩
  · by_cases h2 : queryPanels st.dom n = []
    · rw [initTabsGroup_noPanel st n h1 h2]
      exact ⟨fun m gm hm => hI m gm hm, fun m gm hm => Or.inr hm⟩
    · have hall : ∀ i ∈ queryTriggers st.dom n,
          (domGet st.dom i).hasAttr ATTR_trigger = true :=
        fun i hi => ((mem_queryTriggers st.dom n i).mp hi).2.2
      obtain ⟨tid, hd0⟩ := defaultTabIdOf_some st.dom (queryTriggers st.dom n) h1 hall
      have htid : ¬ tid = "" := by
        obtain ⟨i, hi, hattr⟩ := defaultTabIdOf_mem st.dom (queryTriggers st.dom n) tid hd0
        intro hemp
        subst hemp
        exact hne i ((mem_queryTriggers st.dom n i).mp hi).1 hattr
      obtain ⟨hRF, hEX, hactT, hactP⟩ := init_activeExactly st n tid h1 h2 hdual hd0 htid
      have hform := initTabsGroup_success_form st n tid h1 h2 hd0 htid
      rw [hform] at hEX hactT hactP ⊢
      set trs := queryTriggers st.dom n with htrs
      set pns := queryPanels st.dom n with hpns
      set grp := initGroupRecord st.dom n trs pns with hgrp
      set D2 := activateTabInstant (initRolesDom st.dom trs pns) grp tid with hD2
      have hlen2 : D2.length = st.dom.length := by
        rw [hD2, length_activateTabInstant, length_initRolesDom]
      have hGfr : ∀ j,
          (domGet D2 j).getAttr ATTR_group = (domGet st.dom j).getAttr ATTR_group := by
        intro j
        rw [hD2, getAttr_activateTabInstant_ne _ _ _ ATTR_group (by decide) (by decide) j,
          getAttr_initRolesDom st.dom trs pns ATTR_group j (by decide) (by decide)]
      constructor
      · intro m gm hm
        have hm2 : regFind (regSet st.reg n grp) m = some gm := hm
        show groupWF D2 m gm ∧ phaseInv D2 gm
        by_cases hmn : m = n
        · subst hmn
          rw [regFind_regSet_self] at hm2
          have hgm : gm = grp := (Option.some.inj hm2).symm
          subst hgm
          constructor
          · refine ⟨?_, ?_, ?_, ?_, ?_, ?_⟩
            · intro i hi
              have hi2 : i ∈ trs := hi
              rw [hlen2]
              exact ((mem_queryTriggers st.dom m i).mp (htrs ▸ hi2)).1
            · intro i hi
              have hi2 : i ∈ pns := hi
              rw [hlen2]
              exact ((mem_queryPanels st.dom m i).mp (hpns ▸ hi2)).1
            · intro i hi
              have hi2 : i ∈ trs := hi
              rw [hGfr i]
              exact eq_of_beq ((mem_queryTriggers st.dom m i).mp (htrs ▸ hi2)).2.1
            · intro i hi
              have hi2 : i ∈ pns := hi
              rw [hGfr i]
              exact eq_of_beq ((mem_queryPanels st.dom m i).mp (hpns ▸ hi2)).2.1
            · intro i hi hip
              have hi2 : i ∈ trs := hi
              have hip2 : i ∈ pns := hip
              exact hdual i ((mem_queryTriggers st.dom m i).mp (htrs ▸ hi2)).1
                ⟨((mem_queryTriggers st.dom m i).mp (htrs ▸ hi2)).2.2,
                 ((mem_queryPanels st.dom m i).mp (hpns ▸ hip2)).2.2⟩
            · show ¬ grp.activeClass = ANIM_CLASS_entering
              have hh : grp.activeClass
                  = deriveActiveClass (domGet st.dom (trs.headD 0)) := rfl
              rw [hh]
              exact deriveActiveClass_ne_entering _
                (hac _ ((mem_queryTriggers st.dom m _).mp (htrs ▸ headD_mem trs h1)).1)
          · refine (phaseInv_idle D2 grp rfl).mpr ⟨tid, ⟨?_, ?_⟩, ?_⟩
            · exact hEX
            · intro i hi
              exact (hactT i hi).1
            · intro i hi
              exact (hactP i hi).1
        · rw [regFind_regSet_ne st.reg n grp m hmn] at hm2
          obtain ⟨hWFm, hPhm⟩ := hI m gm hm2
          obtain ⟨hTbm, hPbm, hTgm, hPgm, hTPm, hACm⟩ := hWFm
          have huntouched : ∀ i, (domGet st.dom i).getAttr ATTR_group = some m →
              domGet D2 i = domGet st.dom i := by
            intro i hgi
            have hiT : ¬ i ∈ trs := by
              intro hmem
              have hb := ((mem_queryTriggers st.dom n i).mp (htrs ▸ hmem)).2.1
              have h3 := (eq_of_beq hb).symm.trans hgi
              exact hmn (Option.some.inj h3).symm
            have hiP : ¬ i ∈ pns := by
              intro hmem
              have hb := ((mem_queryPanels st.dom n i).mp (hpns ▸ hmem)).2.1
              have h3 := (eq_of_beq hb).symm.trans hgi
              exact hmn (Option.some.inj h3).symm
            rw [hD2, domGet_activateTabInstant_notMem _ grp tid i hiT hiP,
              domGet_initRolesDom_notMem st.dom trs pns i hiT hiP]
          constructor
          · exact groupWF_of_frame st.dom D2 m gm hlen2 hGfr
              ⟨hTbm, hPbm, hTgm, hPgm, hTPm, hACm⟩
          · exact phaseInv_of_eq st.dom D2 gm (fun i hi => huntouched i (hTgm i hi))
              (fun i hi => huntouched i (hPgm i hi)) hPhm
      · intro m gm hm
        have hm2 : regFind (regSet st.reg n grp) m = some gm := hm
        by_cases hmn : m = n
        · exact Or.inl hmn
        · rw [regFind_regSet_ne st.reg n grp m hmn] at hm2
          exact Or.inr hm2

theorem Inv_initFold (st0 : St) (hDH : domHyps st0.dom) :
    ∀ (names : List String) (st : St), InitFrame st0 st → Inv st →
      InitFrame st0 (names.foldl initTabsGroup st) ∧ Inv (names.foldl initTabsGroup st) := by
  intro names
  induction names with
  | nil =>
    intro st hfr hI
    exact ⟨hfr, hI⟩
  | cons a l ih =>
    intro st hfr hI
    have hstep := Inv_initTabsGroup st0 st a hDH hfr hI
    have hfr2 : InitFrame st0 (initTabsGroup st a) := by
      obtain ⟨hl, hk⟩ := frame_initTabsGroup st a
      exact ⟨hl.trans hfr.1,
        fun k h1 h2 h3 h4 j => (hk k h1 h2 h3 h4 j).trans (hfr.2 k h1 h2 h3 h4 j)⟩
    exact ih (initTabsGroup st a) hfr2 hstep.1

theorem Inv_initAllTabs (st : St) (hreg : st.reg = []) (hDH : domHyps st.dom) :
    Inv (initAllTabs st) := by
  have hI0 : Inv st := by
    intro m gm hm
    rw [hreg] at hm
    exact Option.noConfusion hm
  have h := Inv_initFold st hDH (discoverGroupNames st.dom) st
    ⟨rfl, fun k h1 h2 h3 h4 j => rfl⟩ hI0
  intro m gm hm
  exact h.2 m gm hm

/-! ### Claim C1 -/

/-- The claim as stated: from a freshly initialized page, after any sequence
of activation requests and timer firings, every registered group that is not
mid-animation has a tab identifier whose triggers carry the active class and
whose matching panels carry it, exactly. -/
def C1Claim : Prop :=
  ∀ (st : St) (evs : List Event) (n : String) (g : TabsGroup),
    st.reg = [] →
    regFind (run (initAllTabs st) evs).reg n = some g →
    g.isAnimating = false →
    ∃ tid, triggersSettled (run (initAllTabs st) evs).dom g tid ∧
      panelsSettled (run (initAllTabs st) evs).dom g tid

def exDomA1 : Dom :=
  [{ tag := "DIV", attrs := [(ATTR_group, "g"), (ATTR_trigger, "a")], classes := [] },
   { tag := "DIV", attrs := [(ATTR_group, "g"), (ATTR_content, "a")], classes := [] }]

def stA1 : St := { dom := exDomA1, reg := [], log := [] }

def gA1 : TabsGroup :=
  { name := "g", triggers := [0], panels := [1], activeClass := "is-tab-active",
    animate := false, duration := some 300, phase := AnimPhase.idle }

/-- C1 counterexample: an activation request whose tab identifier matches no
trigger of the group deactivates every trigger and panel, leaving the settled
group with no active tab identifier at all. -/
theorem tabs_C1_counterexample : ¬ C1Claim := by
  intro h
  obtain ⟨tid, ⟨⟨i, hi, hattr⟩, hchar⟩, hpan⟩ :=
    h stA1 [Event.activate "g" "zzz"] "g" gA1 rfl (by decide) (by decide)
  have hi0 : i = 0 := by
    have hi2 : i ∈ [0] := hi
    simpa using hi2
  subst hi0
  have he : (domGet (run (initAllTabs stA1) [Event.activate "g" "zzz"]).dom 0
      ).getAttr ATTR_trigger = some "a" := by decide
  rw [he] at hattr
  have htid : tid = "a" := (Option.some.inj hattr).symm
  subst htid
  have hcf := hchar 0 (by decide)
  have hno : ¬ ((domGet (run (initAllTabs stA1) [Event.activate "g" "zzz"]).dom 0
      ).classContains gA1.activeClass =
      ((domGet (run (initAllTabs stA1) [Event.activate "g" "zzz"]).dom 0
      ).getAttr ATTR_trigger == some "a")) := by decide
  exact hno hcf

/-- C1 amended: from a freshly initialized page whose markup is well formed
(no element is both a trigger and a panel, no trigger carries the empty tab
identifier, no group overrides its active class with the reserved entering
class), after any sequence of activation requests targeting existing triggers
and timer firings, every registered group that is settled (not animating) has
exactly one tab identifier whose triggers carry the group active class, and
exactly the panels sharing that identifier carry it. -/
theorem tabs_C1_settled_after_init (st : St) (evs : List Event) (n : String) (g : TabsGroup)
    (hreg : st.reg = [])
    (hdual : ∀ i, i < st.dom.length → ¬ ((domGet st.dom i).hasAttr ATTR_trigger = true ∧
      (domGet st.dom i).hasAttr ATTR_content = true))
    (hne : ∀ i, i < st.dom.length → ¬ (domGet st.dom i).getAttr ATTR_trigger = some "")
    (hac : ∀ i, i < st.dom.length →
      ¬ (domGet st.dom i).getAttr ATTR_activeClass = some ANIM_CLASS_entering)
    (hval : ∀ ev ∈ evs, validEvent (initAllTabs st) ev = true)
    (hg : regFind (run (initAllTabs st) evs).reg n = some g)
    (hIdle : g.isAnimating = false) :
    ∃ tid, triggersSettled (run (initAllTabs st) evs).dom g tid ∧
      panelsSettled (run (initAllTabs st) evs).dom g tid ∧
      ∀ tid2, triggersSettled (run (initAllTabs st) evs).dom g tid2 → tid2 = tid := by
  have hI0 : Inv (initAllTabs st) := Inv_initAllTabs st hreg ⟨hdual, hne, hac⟩
  obtain ⟨hF, hI⟩ := run_preserve (initAllTabs st) evs hI0 hval
  obtain ⟨hWF, hPh⟩ := hI n g hg
  have hidle := phase_eq_idle_of_not_animating g hIdle
  have hset := (phaseInv_idle _ g hidle).mp hPh
  obtain ⟨tid, hT, hP⟩ := hset
  exact ⟨tid, hT, hP, fun tid2 hT2 => triggersSettled_unique _ g tid tid2 hT hT2⟩

def exDomW : Dom :=
  [{ tag := "DIV", attrs := [(ATTR_group, "g"), (ATTR_trigger, "a"), (ATTR_animate, "")],
     classes := [] },
   { tag := "DIV", attrs := [(ATTR_group, "g"), (ATTR_trigger, "b")], classes := [] },
   { tag := "DIV", attrs := [(ATTR_group, "g"), (ATTR_content, "a")], classes := [] },
   { tag := "DIV", attrs := [(ATTR_group, "g"), (ATTR_content, "b")], classes := [] }]

def stW : St := { dom := exDomW, reg := [], log := [] }

def evsW : List Event :=
  [Event.activate "g" "b", Event.fireExitTimer "g", Event.fireEnterTimer "g"]

def gW : TabsGroup :=
  { name := "g", triggers := [0, 1], panels := [2, 3], activeClass := "is-tab-active",
    animate := true, duration := some 300, phase := AnimPhase.idle }

theorem tabs_C1_witness :
    stW.reg = [] ∧
    (∀ ev ∈ evsW, validEvent (initAllTabs stW) ev = true) ∧
    regFind (run (initAllTabs stW) evsW).reg "g" = some gW ∧
    gW.isAnimating = false ∧
    (∃ tid, triggersSettled (run (initAllTabs stW) evsW).dom gW tid ∧
      panelsSettled (run (initAllTabs stW) evsW).dom gW tid ∧
      ∀ tid2, triggersSettled (run (initAllTabs stW) evsW).dom gW tid2 → tid2 = tid) :=
  ⟨rfl, by decide, by decide, by decide,
    tabs_C1_settled_after_init stW evsW "g" gW rfl (by decide) (by decide) (by decide)
      (by decide) (by decide) (by decide)⟩

end Tabs
